import Mathlib

/-!
Verification development for the error-reporting core of an MPI runtime
(file src/mpi/errhan/errutil.c).

The development shallowly embeds the error-code codec, the message ring,
the diagnostic renderer and the handler-dispatch routine, and proves or
refutes the behavioural claims made by the specification.

Machine integers: C `int` error codes are modelled as `Nat` values below
`2 ^ 32` (the code only uses bitwise operations, equality, and comparisons
of masked non-negative fields, all of which agree with the two-complement
reading).  C strings are modelled as `List Char`.
-/

namespace Errutil

/-- C strings are byte sequences; modelled as lists of characters. -/
abbrev CStr := List Char

/-! ## Error-code field layout

Modelled from the spec: the error code packs, lowest bits first, the
class (7 bits), the generic-message index stored as index+1 (12 bits),
the specific ring index (7 bits), the specific sequence (4 bits), the
fatal flag (1 bit) and the dynamic flag (1 bit).  The widths and shifts
are a fixed configuration from a header that is not part of the sources
under verification; the layout below fills a 32-bit word in the order
the spec documents. -/

def ERROR_CLASS_MASK : Nat := 2 ^ 7 - 1

def ERROR_CLASS_SIZE : Nat := 2 ^ 7

def ERROR_GENERIC_SHIFT : Nat := 7

def ERROR_GENERIC_MASK : Nat := (2 ^ 12 - 1) <<< 7

def ERROR_SPECIFIC_INDEX_SHIFT : Nat := 19

def ERROR_SPECIFIC_INDEX_MASK : Nat := (2 ^ 7 - 1) <<< 19

def ERROR_SPECIFIC_INDEX_SIZE : Nat := 2 ^ 7

def ERROR_SPECIFIC_SEQ_SHIFT : Nat := 26

def ERROR_SPECIFIC_SEQ_MASK : Nat := (2 ^ 4 - 1) <<< 26

def ERROR_SPECIFIC_SEQ_SIZE : Nat := 2 ^ 4

def ERROR_FATAL_MASK : Nat := 2 ^ 30

def ERROR_DYN_MASK : Nat := 2 ^ 31

/-- Modelled from the spec: the 32-bit complement of the class mask, used by
`errcode & ~ERROR_CLASS_MASK` in the source. -/
def NOT_ERROR_CLASS_MASK : Nat := 2 ^ 32 - 2 ^ 7

/-! ## MPI constants

Modelled from the spec: well-known error classes (success, the generic
"other" class, the "unknown" class, the "error in status array" sentinel)
and the bounds of the two valid class ranges (built-in classes up to
`MPICH_ERR_LAST_CLASS`, extension classes strictly above
`MPICH_ERR_FIRST_MPIX` up to `MPICH_ERR_LAST_MPIX`, with a gap between the
two ranges).  The numeric values follow the public MPI header. -/

def MPI_SUCCESS : Nat := 0

def MPI_ERR_COMM : Nat := 5

def MPI_ERR_UNKNOWN : Nat := 13

def MPI_ERR_OTHER : Nat := 15

def MPI_ERR_INTERN : Nat := 16

def MPI_ERR_IN_STATUS : Nat := 17

def MPICH_ERR_LAST_CLASS : Nat := 62

def MPICH_ERR_FIRST_MPIX : Nat := 100

def MPICH_ERR_LAST_MPIX : Nat := 105

/-- Modelled from the spec: handles of the four built-in error handlers. -/
def MPI_ERRORS_ARE_FATAL : Nat := 0x54000120

def MPI_ERRORS_RETURN : Nat := 0x54000121

def MPIR_ERRORS_THROW_EXCEPTIONS : Nat := 0x54000122

def MPI_ERRORS_ABORT : Nat := 0x54000123

/-- Source macro `ERROR_GET_CLASS`: extract the class field of a code. -/
def ERROR_GET_CLASS (errcode : Nat) : Nat := errcode &&& ERROR_CLASS_MASK

/-- Source macro `MPIR_ERR_GET_CLASS`; identical to `ERROR_GET_CLASS`. -/
def MPIR_ERR_GET_CLASS (errcode : Nat) : Nat := ERROR_GET_CLASS errcode

/-- Source macro `is_valid_error_class` (errutil.c line 88): the value lies in
the built-in range `[0, MPICH_ERR_LAST_CLASS]` or the extension range
`(MPICH_ERR_FIRST_MPIX, MPICH_ERR_LAST_MPIX]`. -/
def is_valid_error_class (errcode : Nat) : Bool :=
  (errcode ≤ MPICH_ERR_LAST_CLASS) ||
    (MPICH_ERR_FIRST_MPIX < errcode && errcode ≤ MPICH_ERR_LAST_MPIX)

/-- Source `MPIR_Err_is_fatal` (errutil.c lines 172-179): a code with the
dynamic flag is never fatal; otherwise test the fatal bit. -/
def MPIR_Err_is_fatal (errcode : Nat) : Bool :=
  if errcode &&& ERROR_DYN_MASK ≠ 0 then false
  else errcode &&& ERROR_FATAL_MASK ≠ 0

/-- Source `checkValidErrcode` (errutil.c lines 615-646).  The first argument
is the class the caller extracted from the code.  Returns the (possibly
repaired) code together with the `rc` flag, which is set exactly when the
routine emitted its diagnostic and repaired the class.  The routine always
returns; it never aborts. -/
def checkValidErrcode (error_class : Nat) (errcode : Nat) : Nat × Bool :=
  if error_class > MPICH_ERR_LAST_MPIX then
    ((errcode &&& NOT_ERROR_CLASS_MASK) ||| MPI_ERR_UNKNOWN, true)
  else (errcode, false)

/-! ## Message tables and the error-message ring -/

/-- Entry of the generated static message tables (defmsg.h), guarded by two
redundant sentinel values.  The generated tables are external data; entries
are modelled as records carrying the sentinel words. -/
structure MsgEntry where
  sentinal1 : Nat
  short_name : CStr
  long_name : CStr
  sentinal2 : Nat
deriving DecidableEq

/-- External data consumed by the core: the generated message tables, the
class-to-message index, the registered dynamic-code stringifier, and the
describe hooks used by the datatype renderer.  Modelled from the spec
(external collaborators consumed as data). -/
structure ErrEnv where
  generic_err_msgs : List MsgEntry
  specific_err_msgs : List MsgEntry
  class_to_index : Nat → Nat
  errcode_to_string : Option (Nat → CStr)
  typeGetCombiner : Nat → Nat
  datatypeBuiltinToString : Nat → Option CStr
  datatypeCombinerToString : Nat → Option CStr
  origBuiltin : Nat → Nat

def MAX_ERROR_RING : Nat := ERROR_SPECIFIC_INDEX_SIZE

def MAX_LOCATION_LEN : Nat := 63

def MPIR_MAX_ERROR_LINE : Nat := 256

/-- Source struct `MPIR_Err_msg` (errutil.c lines 797-805).  The
`user_error_code` field is a C int stored as its 32-bit two-complement
image. -/
structure MPIR_Err_msg where
  id : Nat
  prev_error : Nat
  use_user_error_code : Bool
  user_error_code : Nat
  location : CStr
  msg : CStr
deriving DecidableEq

/-- Zero-initialized ring entry (`memset` image of a slot). -/
def zeroEntry : MPIR_Err_msg :=
  { id := 0, prev_error := 0, use_user_error_code := false,
    user_error_code := 0, location := [], msg := [] }

instance : Inhabited MPIR_Err_msg := ⟨zeroEntry⟩

/-- The mutable ring state: `ErrorRing`, the write cursor `error_ring_loc`
and the high-water mark `max_error_ring_loc`.  Slots outside
`[0, MAX_ERROR_RING)` are never read by the modelled code. -/
structure RingState where
  ring : Nat → MPIR_Err_msg
  error_ring_loc : Nat
  max_error_ring_loc : Nat

/-- Ring state at process start: all slots zeroed, cursor and high-water
mark at zero. -/
def freshRing : RingState :=
  { ring := fun _ => zeroEntry, error_ring_loc := 0, max_error_ring_loc := 0 }

/-- Replace the whole entry stored at slot `i`. -/
def setEntry (s : RingState) (i : Nat) (e : MPIR_Err_msg) : RingState :=
  { s with ring := fun j => if j = i then e else s.ring j }

/-- Overwrite only the `prev_error` field of slot `i`. -/
def updPrev (s : RingState) (i : Nat) (v : Nat) : RingState :=
  setEntry s i { s.ring i with prev_error := v }

/-- Source `convertErrcodeToIndexes` (errutil.c lines 1817-1830): decode the
ring index, ring id and generic index of a code; `none` when the ring index
is outside `[0, MAX_ERROR_RING)` or beyond the high-water mark.  (The C
routine returns the decoded values even on failure; no caller uses them in
that case, so the failure is modelled as `none`.) -/
def convertErrcodeToIndexes (s : RingState) (errcode : Nat) :
    Option (Nat × Nat × Int) :=
  let ring_idx := (errcode &&& ERROR_SPECIFIC_INDEX_MASK) >>> ERROR_SPECIFIC_INDEX_SHIFT
  let ring_id := errcode &&& (ERROR_CLASS_MASK ||| ERROR_GENERIC_MASK ||| ERROR_SPECIFIC_SEQ_MASK)
  let generic_idx : Int :=
    ((errcode &&& ERROR_GENERIC_MASK) >>> ERROR_GENERIC_SHIFT : Nat) - 1
  if ring_idx ≥ MAX_ERROR_RING ∨ ring_idx > s.max_error_ring_loc then none
  else some (ring_idx, ring_id, generic_idx)

/-- Source `checkErrcodeIsValid` (errutil.c lines 1832-1861): 0 when the code
is a bare valid class or a live ring-backed code; otherwise the reason its
decode fails (1 index out of range, 2 id mismatch, 3 generic index out of
range). -/
def checkErrcodeIsValid (env : ErrEnv) (s : RingState) (errcode : Nat) : Nat :=
  if is_valid_error_class errcode then 0
  else
    let ring_idx := (errcode &&& ERROR_SPECIFIC_INDEX_MASK) >>> ERROR_SPECIFIC_INDEX_SHIFT
    let ring_id := errcode &&& (ERROR_CLASS_MASK ||| ERROR_GENERIC_MASK ||| ERROR_SPECIFIC_SEQ_MASK)
    let generic_idx : Int :=
      ((errcode &&& ERROR_GENERIC_MASK) >>> ERROR_GENERIC_SHIFT : Nat) - 1
    if ring_idx ≥ MAX_ERROR_RING ∨ ring_idx > s.max_error_ring_loc then 1
    else if (s.ring ring_idx).id ≠ ring_id then 2
    else if generic_idx < -1 ∨ generic_idx > (env.generic_err_msgs.length : Int) then 3
    else 0

/-- Source `checkForUserErrcode` (errutil.c lines 1866-1891): substitute the
user-provided return value when the immediate ring entry of a live code
carries one. -/
def checkForUserErrcode (s : RingState) (errcode : Nat) : Nat :=
  if errcode = MPI_SUCCESS then errcode
  else
    match convertErrcodeToIndexes s errcode with
    | none => errcode
    | some (ring_idx, ring_id, generic_idx) =>
      if generic_idx ≥ 0 ∧ (s.ring ring_idx).id = ring_id ∧
          (s.ring ring_idx).use_user_error_code then
        (s.ring ring_idx).user_error_code
      else errcode

/-- Source `ErrcodeCreateID` (errutil.c lines 1794-1812): the slot id packs
the class, the generic index + 1 and an additive checksum of the message
text reduced modulo the sequence space. -/
def ErrcodeCreateID (error_class : Nat) (generic_idx : Int) (msg : CStr) :
    Nat × Nat :=
  let ring_seq := (msg.foldl (fun a c => a + c.toNat) 0) % ERROR_SPECIFIC_SEQ_SIZE
  let ring_id := (error_class &&& ERROR_CLASS_MASK) |||
    ((generic_idx + 1).toNat <<< ERROR_GENERIC_SHIFT) |||
    (ring_seq <<< ERROR_SPECIFIC_SEQ_SHIFT)
  (ring_id, ring_seq)

/-! ## Combining error codes -/

/-- Source `CombineSpecificCodes` loop body (errutil.c lines 1917-1953),
walking the chain of `prev_error` links starting from `error_code`.  The C
loop has no intrinsic bound (a cyclic chain would spin forever), so the
walk takes explicit fuel; any fuel larger than the chain length computes
the the same result. -/
def CombineSpecificCodesAux (error2_code error2_class : Nat) :
    Nat → RingState → Nat → RingState
  | 0, s, _ => s
  | fuel + 1, s, error_code =>
    match convertErrcodeToIndexes s error_code with
    | none => s
    | some (ring_idx, ring_id, generic_idx) =>
      if generic_idx < 0 ∨ (s.ring ring_idx).id ≠ ring_id then s
      else
        let prev := (s.ring ring_idx).prev_error
        if prev = MPI_SUCCESS then updPrev s ring_idx error2_code
        else
          let s2 :=
            if MPIR_ERR_GET_CLASS prev = MPI_ERR_OTHER then
              updPrev s ring_idx ((prev &&& NOT_ERROR_CLASS_MASK) ||| error2_class)
            else s
          CombineSpecificCodesAux error2_code error2_class fuel s2 prev

/-- Source `CombineSpecificCodes` (errutil.c lines 1917-1953). -/
def CombineSpecificCodes (s : RingState) (fuel : Nat)
    (error1_code error2_code error2_class : Nat) : RingState :=
  CombineSpecificCodesAux error2_code error2_class fuel s error1_code

/-- The class `MPIR_Err_combine_codes` takes from its second argument
(errutil.c lines 673-676): the class of the second code, replaced by the
generic "other" class when out of range.  (The C test
`error2_class < MPI_SUCCESS` cannot fire: the class is a masked
non-negative field.) -/
def combineErrClass (error2_code : Nat) : Nat :=
  if MPIR_ERR_GET_CLASS error2_code > MPICH_ERR_LAST_MPIX then MPI_ERR_OTHER
  else MPIR_ERR_GET_CLASS error2_code

/-- Source `MPIR_Err_combine_codes` (errutil.c lines 654-687).  Returns the
updated ring state together with the combined code. -/
def MPIR_Err_combine_codes (s : RingState) (fuel : Nat)
    (error1 error2 : Nat) : RingState × Nat :=
  if error1 = MPI_SUCCESS then (s, error2)
  else if error2 = MPI_SUCCESS then (s, error1)
  else if error1 &&& ERROR_DYN_MASK ≠ 0 then (s, error1)
  else if error2 &&& ERROR_DYN_MASK ≠ 0 then (s, error2)
  else
    let error2_class := combineErrClass error2
    let s2 := CombineSpecificCodes s fuel error1 error2 error2_class
    if MPIR_ERR_GET_CLASS error1 = MPI_ERR_OTHER then
      (s2, (error1 &&& NOT_ERROR_CLASS_MASK) ||| error2_class)
    else (s2, error1)

/-- The guard `CombineSpecificCodes` and the chain renderers apply before
trusting a link: decode the code and check the slot id; `some ring_idx`
for a live link, `none` when the chain ends here. -/
def validLink (s : RingState) (errcode : Nat) : Option Nat :=
  match convertErrcodeToIndexes s errcode with
  | none => none
  | some (ring_idx, ring_id, generic_idx) =>
    if generic_idx < 0 ∨ (s.ring ring_idx).id ≠ ring_id then none
    else some ring_idx

/-- The causal chain of a code in a given ring state: `chainFrom s c l t`
says the walk from `c` visits exactly the slots `l` and is then left
holding code `t`, whose link is dead (success, or stale, or not
ring-backed). -/
def chainFrom (s : RingState) : Nat → List Nat → Nat → Prop
  | c, [], t => c = t ∧ validLink s c = none
  | c, i :: l, t => validLink s c = some i ∧ chainFrom s ((s.ring i).prev_error) l t

/-! ## C string primitives

The renderer writes into a caller-supplied buffer of `maxlen` bytes.  The
model keeps the visible bytes written so far (`out`), whether a
terminating NUL currently sits right after them (`term`), and the
remaining capacity (`rem`).  A C `strlen` performed on an unterminated
region reads past the buffer; executions that do so are undefined and
modelled as `none`. -/

/-- C `strcmp` on the byte values, reduced to its sign. -/
def strcmp : CStr → CStr → Int
  | [], [] => 0
  | [], _ :: _ => -1
  | _ :: _, [] => 1
  | a :: as, b :: bs =>
    if a.toNat < b.toNat then -1
    else if b.toNat < a.toNat then 1
    else strcmp as bs

/-- C `strncmp` on the byte values, reduced to its sign. -/
def strncmp : CStr → CStr → Nat → Int
  | _, _, 0 => 0
  | [], [], _ + 1 => 0
  | [], _ :: _, _ + 1 => -1
  | _ :: _, [], _ + 1 => 1
  | a :: as, b :: bs, n + 1 =>
    if a.toNat < b.toNat then -1
    else if b.toNat < a.toNat then 1
    else strncmp as bs n

/-- Bytes a C `snprintf(dst, n, ...)` rendering text `s` leaves in the
destination; the terminating NUL (always written when `n > 0`) is tracked
separately by the callers. -/
def snprintfBounded (n : Nat) (s : CStr) : CStr := s.take (n - 1)

/-- C `MPL_strncpy` from the MPL support library (modelled from its use in
the source: callers re-terminate with `dst[n-1] = 0` exactly when the copy
reports truncation, so the copy itself terminates only when the source and
its NUL fit in `n` bytes).  Returns the copied bytes and whether the NUL
was written; `n = 0` copies nothing and reports no truncation. -/
def mplStrncpy (s : CStr) (n : Nat) : CStr × Bool :=
  if n = 0 then ([], false)
  else if s.length < n then (s, true)
  else (s.take n, false)

/-- Decimal rendering of a C `int` or `long long` value. -/
def intToDec (i : Int) : CStr := (toString i).data

/-- Lower-case hexadecimal digits of a natural number, as `printf %x`. -/
def natToHex (n : Nat) : CStr := Nat.toDigits 16 n

/-- Rendering of `%x` on a C `int`: the unsigned 32-bit image in hex. -/
def intToHex32 (i : Int) : CStr := natToHex (i % (2 ^ 32 : Int)).toNat

/-- Rendering of `%llx` on a C `long long`: the unsigned 64-bit image. -/
def intToHex64 (i : Int) : CStr := natToHex (i % (2 ^ 64 : Int)).toNat

/-- Zero-padded eight-digit hex as `printf %08x`. -/
def natToHex8 (n : Nat) : CStr :=
  let h := natToHex n
  List.replicate (8 - h.length) '0' ++ h

/-- The 32-bit unsigned image of a C `int` argument. -/
def intImage32 (i : Int) : Nat := (i % (2 ^ 32 : Int)).toNat

/-! ## Renderer constants

Modelled from the spec: sentinel integer values, well-known handle
constants and the RMA assertion flags consumed by the object-aware
renderer.  The numeric values follow the public MPI header; the renderer
only compares them for equality. -/

def MPI_ANY_SOURCE : Int := -2

def MPI_PROC_NULL : Int := -1

def MPI_ROOT : Int := -3

def MPI_ANY_TAG : Int := -1

def MPI_IN_PLACE : Int := -1

def MPI_COMM_WORLD : Nat := 0x44000000

def MPI_COMM_SELF : Nat := 0x44000001

def MPI_COMM_NULL : Nat := 0x04000000

def MPI_INFO_NULL : Nat := 0x1c000000

def MPI_WIN_NULL : Nat := 0x20000000

def MPI_GROUP_NULL : Nat := 0x08000000

def MPI_REQUEST_NULL : Nat := 0x2c000000

def MPI_ERRHANDLER_NULL : Nat := 0x14000000

def MPI_SESSION_NULL : Nat := 0x38000000

def MPI_DATATYPE_NULL : Nat := 0x0c000000

def MPI_KEYVAL_INVALID : Nat := 0x24000000

def MPI_TAG_UB : Nat := 0x64400001

def MPI_HOST : Nat := 0x64400003

def MPI_IO : Nat := 0x64400005

def MPI_WTIME_IS_GLOBAL : Nat := 0x64400007

def MPI_UNIVERSE_SIZE : Nat := 0x64400009

def MPI_LASTUSEDCODE : Nat := 0x6440000b

def MPI_APPNUM : Nat := 0x6440000d

def MPI_WIN_BASE : Nat := 0x66000001

def MPI_WIN_SIZE : Nat := 0x66000003

def MPI_WIN_DISP_UNIT : Nat := 0x66000005

def MPI_WIN_CREATE_FLAVOR : Nat := 0x66000007

def MPI_WIN_MODEL : Nat := 0x66000009

def MPI_MODE_NOCHECK : Nat := 1024

def MPI_MODE_NOSTORE : Nat := 2048

def MPI_MODE_NOPUT : Nat := 4096

def MPI_MODE_NOPRECEDE : Nat := 8192

def MPI_MODE_NOSUCCEED : Nat := 16384

/-- Modelled from the spec: handle-kind field of an object handle and the
datatype object kind, from the runtime object model the renderer consults. -/
def HANDLE_GET_MPI_KIND (h : Nat) : Nat := (h &&& 0x3c000000) >>> 26

def HANDLE_GET_KIND (h : Nat) : Nat := (h &&& 0xc0000000) >>> 30

def MPIR_DATATYPE_KIND : Nat := 3

def HANDLE_KIND_INVALID : Nat := 0

def MPI_COMBINER_NAMED : Nat := 1

/-- Modelled from the spec: the four MPI operator constants the renderer
names symbolically, in source order. -/
def MPI_OP_NULL : Nat := 0x18000000

def MPI_MAX : Nat := 0x58000001

def MPI_MIN : Nat := 0x58000002

def MPI_SUM : Nat := 0x58000003

def MPI_PROD : Nat := 0x58000004

def MPI_LAND : Nat := 0x58000005

def MPI_BAND : Nat := 0x58000006

def MPI_LOR : Nat := 0x58000007

def MPI_BOR : Nat := 0x58000008

def MPI_LXOR : Nat := 0x58000009

def MPI_BXOR : Nat := 0x5800000a

def MPI_MINLOC : Nat := 0x5800000b

def MPI_MAXLOC : Nat := 0x5800000c

def MPI_REPLACE : Nat := 0x5800000d

def MPI_NO_OP : Nat := 0x5800000e

def MPIX_EQUAL : Nat := 0x5800000f

/-! ## Renderer helper routines -/

/-- Flag bits and names tested by `GetAssertString`, in source order. -/
def assertFlags : List (Nat × CStr) :=
  [(MPI_MODE_NOSTORE, "MPI_MODE_NOSTORE".data),
   (MPI_MODE_NOCHECK, "MPI_MODE_NOCHECK".data),
   (MPI_MODE_NOPUT, "MPI_MODE_NOPUT".data),
   (MPI_MODE_NOPRECEDE, "MPI_MODE_NOPRECEDE".data),
   (MPI_MODE_NOSUCCEED, "MPI_MODE_NOSUCCEED".data)]

/-- Source `GetAssertString` (errutil.c lines 1321-1387), on the unsigned
image of the argument.  The " | " separator appears exactly when a name
was already appended (the `len < ASSERT_STR_MAXLEN` tests); every possible
output fits the 256-byte static buffer, so the copy bounds never truncate. -/
def GetAssertString (d : Nat) : CStr :=
  if d = 0 then "assert=0".data
  else
    let step := fun (st : CStr × Nat) (p : Nat × CStr) =>
      if st.2 &&& p.1 ≠ 0 then
        (if st.1.length = 0 then p.2 else st.1 ++ " | ".data ++ p.2, st.2 ^^^ p.1)
      else st
    let st := assertFlags.foldl step ([], d)
    if st.2 ≠ 0 then
      if st.1.length = 0 then "assert=0x".data ++ natToHex st.2
      else st.1 ++ " | 0x".data ++ natToHex st.2
    else st.1

/-- Source `GetDTypeString` (errutil.c lines 1389-1427); the combiner and
name lookups of the external datatype module are environment hooks.  The
64-byte static buffer bounds the formatted fallbacks. -/
def GetDTypeString (env : ErrEnv) (d : Nat) : CStr :=
  if HANDLE_GET_MPI_KIND d ≠ MPIR_DATATYPE_KIND ∨
      (HANDLE_GET_KIND d = HANDLE_KIND_INVALID ∧ d ≠ MPI_DATATYPE_NULL) then
    "INVALID DATATYPE".data
  else if d = MPI_DATATYPE_NULL then "MPI_DATATYPE_NULL".data
  else if d = 0 then "dtype=0x0".data
  else
    let combiner := env.typeGetCombiner d
    if combiner = MPI_COMBINER_NAMED then
      match env.datatypeBuiltinToString (env.origBuiltin d) with
      | none => ("dtype=0x".data ++ natToHex8 d).take 63
      | some str => str
    else
      match env.datatypeCombinerToString combiner with
      | none => ("dtype=USER<0x".data ++ natToHex8 d ++ ">".data).take 63
      | some str => ("dtype=USER<".data ++ str ++ ">".data).take 63

/-- Source `GetMPIOpString` (errutil.c lines 1429-1470). -/
def GetMPIOpString (o : Nat) : CStr :=
  if o = MPI_OP_NULL then "MPI_OP_NULL".data
  else if o = MPI_MAX then "MPI_MAX".data
  else if o = MPI_MIN then "MPI_MIN".data
  else if o = MPI_SUM then "MPI_SUM".data
  else if o = MPI_PROD then "MPI_PROD".data
  else if o = MPI_LAND then "MPI_LAND".data
  else if o = MPI_BAND then "MPI_BAND".data
  else if o = MPI_LOR then "MPI_LOR".data
  else if o = MPI_BOR then "MPI_BOR".data
  else if o = MPI_LXOR then "MPI_LXOR".data
  else if o = MPI_BXOR then "MPI_BXOR".data
  else if o = MPI_MINLOC then "MPI_MINLOC".data
  else if o = MPI_MAXLOC then "MPI_MAXLOC".data
  else if o = MPI_REPLACE then "MPI_REPLACE".data
  else if o = MPI_NO_OP then "MPI_NO_OP".data
  else if o = MPIX_EQUAL then "MPIX_EQUAL".data
  else ("op=0x".data ++ natToHex o).take 63

/-- Source `get_keyval_string` (errutil.c lines 1472-1507). -/
def get_keyval_string (keyval : Nat) : CStr :=
  if keyval = MPI_KEYVAL_INVALID then "MPI_KEYVAL_INVALID".data
  else if keyval = MPI_TAG_UB then "MPI_TAG_UB".data
  else if keyval = MPI_HOST then "MPI_HOST".data
  else if keyval = MPI_IO then "MPI_IO".data
  else if keyval = MPI_WTIME_IS_GLOBAL then "MPI_WTIME_IS_GLOBAL".data
  else if keyval = MPI_UNIVERSE_SIZE then "MPI_UNIVERSE_SIZE".data
  else if keyval = MPI_LASTUSEDCODE then "MPI_LASTUSEDCODE".data
  else if keyval = MPI_APPNUM then "MPI_APPNUM".data
  else if keyval = MPI_WIN_BASE then "MPI_WIN_BASE".data
  else if keyval = MPI_WIN_SIZE then "MPI_WIN_SIZE".data
  else if keyval = MPI_WIN_DISP_UNIT then "MPI_WIN_DISP_UNIT".data
  else if keyval = MPI_WIN_CREATE_FLAVOR then "MPI_WIN_CREATE_FLAVOR".data
  else if keyval = MPI_WIN_MODEL then "MPI_WIN_MODEL".data
  else ("keyval=0x".data ++ natToHex keyval).take 63

/-! ## The object-aware template renderer `vsnprintf_mpi` -/

/-- One typed variable argument of the renderer: C `int` (also all MPI
handle typedefs), `long long` (also `MPI_Count`), `char *` (possibly
NULL), or `void *`. -/
inductive VArg where
  | int (i : Int)
  | longlong (i : Int)
  | str (s : Option CStr)
  | ptr (p : Int)
deriving DecidableEq

/-- Split a byte list at the first '%', returning the prefix and, when a
'%' exists, the remainder after it (the C `strchr(fmt, '%')` step). -/
def splitAtPercent : CStr → CStr × Option CStr
  | [] => ([], none)
  | c :: cs =>
    if c = '%' then ([], some cs)
    else
      let r := splitAtPercent cs
      (c :: r.1, r.2)

/-- Buffer state threaded through the renderer: bytes written, whether a
NUL sits right after them, remaining capacity. -/
structure VsBuf where
  out : CStr
  term : Bool
  rem : Nat
deriving DecidableEq

/-- How one directive case renders: through `snprintf` (always terminates
within the bound), through `MPL_strncpy` (may leave the region
unterminated), by aborting template processing (the default case), or not
at all because the argument list does not match (undefined in C). -/
inductive DirResult where
  | sn (piece : CStr) (rest : List VArg)
  | mpl (piece : CStr) (rest : List VArg)
  | unhandled
  | badArgs
deriving DecidableEq

/-- The directive dispatch of `vsnprintf_mpi` (errutil.c lines 1560-1740).
The `%F` case is compiled only with MPI-IO support and is outside the
modelled configuration. -/
def vsnprintfDirective (env : ErrEnv) (c : Char) (args : List VArg) : DirResult :=
  if c = 's' then
    match args with
    | .str v :: rest =>
      .mpl (match v with | some str => str | none => "<NULL>".data) rest
    | _ => .badArgs
  else if c = 'd' then
    match args with
    | .int i :: rest => .sn (intToDec i) rest
    | _ => .badArgs
  else if c = 'L' then
    match args with
    | .longlong i :: rest => .sn (intToDec i) rest
    | _ => .badArgs
  else if c = 'x' then
    match args with
    | .int i :: rest => .sn (intToHex32 i) rest
    | _ => .badArgs
  else if c = 'X' then
    match args with
    | .longlong i :: rest => .sn (intToHex64 i) rest
    | _ => .badArgs
  else if c = 'i' then
    match args with
    | .int i :: rest =>
      if i = MPI_ANY_SOURCE then .mpl "MPI_ANY_SOURCE".data rest
      else if i = MPI_PROC_NULL then .mpl "MPI_PROC_NULL".data rest
      else if i = MPI_ROOT then .mpl "MPI_ROOT".data rest
      else .sn (intToDec i) rest
    | _ => .badArgs
  else if c = 't' then
    match args with
    | .int i :: rest =>
      if i = MPI_ANY_TAG then .mpl "MPI_ANY_TAG".data rest
      else .sn (intToDec i) rest
    | _ => .badArgs
  else if c = 'p' then
    match args with
    | .ptr p :: rest =>
      if p = MPI_IN_PLACE then .mpl "MPI_IN_PLACE".data rest
      else .sn ("0x".data ++ natToHex (p % (2 ^ 64 : Int)).toNat) rest
    | _ => .badArgs
  else if c = 'C' then
    match args with
    | .int i :: rest =>
      let h := intImage32 i
      if h = MPI_COMM_WORLD then .mpl "MPI_COMM_WORLD".data rest
      else if h = MPI_COMM_SELF then .mpl "MPI_COMM_SELF".data rest
      else if h = MPI_COMM_NULL then .mpl "MPI_COMM_NULL".data rest
      else .sn ("comm=0x".data ++ natToHex h) rest
    | _ => .badArgs
  else if c = 'I' then
    match args with
    | .int i :: rest =>
      let h := intImage32 i
      if h = MPI_INFO_NULL then .mpl "MPI_INFO_NULL".data rest
      else .sn ("info=0x".data ++ natToHex h) rest
    | _ => .badArgs
  else if c = 'D' then
    match args with
    | .int i :: rest => .sn (GetDTypeString env (intImage32 i)) rest
    | _ => .badArgs
  else if c = 'W' then
    match args with
    | .int i :: rest =>
      let h := intImage32 i
      if h = MPI_WIN_NULL then .mpl "MPI_WIN_NULL".data rest
      else .sn ("win=0x".data ++ natToHex h) rest
    | _ => .badArgs
  else if c = 'A' then
    match args with
    | .int i :: rest => .sn (GetAssertString (intImage32 i)) rest
    | _ => .badArgs
  else if c = 'G' then
    match args with
    | .int i :: rest =>
      let h := intImage32 i
      if h = MPI_GROUP_NULL then .mpl "MPI_GROUP_NULL".data rest
      else .sn ("group=0x".data ++ natToHex h) rest
    | _ => .badArgs
  else if c = 'O' then
    match args with
    | .int i :: rest => .sn (GetMPIOpString (intImage32 i)) rest
    | _ => .badArgs
  else if c = 'R' then
    match args with
    | .int i :: rest =>
      let h := intImage32 i
      if h = MPI_REQUEST_NULL then .mpl "MPI_REQUEST_NULL".data rest
      else .sn ("req=0x".data ++ natToHex h) rest
    | _ => .badArgs
  else if c = 'E' then
    match args with
    | .int i :: rest =>
      let h := intImage32 i
      if h = MPI_ERRHANDLER_NULL then .mpl "MPI_ERRHANDLER_NULL".data rest
      else .sn ("errh=0x".data ++ natToHex h) rest
    | _ => .badArgs
  else if c = 'S' then
    match args with
    | .int i :: rest =>
      let h := intImage32 i
      if h = MPI_SESSION_NULL then .mpl "MPI_SESSION_NULL".data rest
      else .sn ("session=0x".data ++ natToHex h) rest
    | _ => .badArgs
  else if c = 'K' then
    match args with
    | .int i :: rest => .sn (get_keyval_string (intImage32 i)) rest
    | _ => .badArgs
  else if c = 'c' then
    match args with
    | .longlong i :: rest => .sn (intToDec i) rest
    | _ => .badArgs
  else .unhandled

/-- Main renderer loop (errutil.c lines 1546-1748): copy the literal
segment before each directive with a bounded `memcpy`, render the
directive, then measure the written piece with `strlen` (undefined, hence
`none`, when the piece left the region unterminated or the capacity was
already exhausted); the literal tail after the last directive is copied
with `MPL_strncpy` and may legitimately leave the output unterminated. -/
def vsnprintfAux (env : ErrEnv) : Nat → VsBuf → CStr → List VArg → Option (CStr × Bool)
  | 0, _, _, _ => none
  | fuel + 1, buf, fmt, args =>
    match splitAtPercent fmt with
    | (seg, none) =>
      if seg.isEmpty then some (buf.out, buf.term)
      else
        let r := mplStrncpy seg buf.rem
        some (buf.out ++ r.1, r.2)
    | (seg, some rest) =>
      let len := min buf.rem seg.length
      let buf2 : VsBuf :=
        { out := buf.out ++ seg.take len,
          term := if 0 < len then false else buf.term,
          rem := buf.rem - len }
      match rest with
      | [] => some (buf2.out, buf2.term)
      | c :: rest2 =>
        match vsnprintfDirective env c args with
        | .unhandled => some (buf2.out, buf2.term)
        | .badArgs => none
        | .sn piece args2 =>
          if buf2.rem = 0 then none
          else
            let vis := piece.take (buf2.rem - 1)
            vsnprintfAux env fuel
              { out := buf2.out ++ vis, term := true, rem := buf2.rem - vis.length }
              rest2 args2
        | .mpl piece args2 =>
          let r := mplStrncpy piece buf2.rem
          if r.2 then
            vsnprintfAux env fuel
              { out := buf2.out ++ r.1, term := true, rem := buf2.rem - r.1.length }
              rest2 args2
          else none

/-- Source `vsnprintf_mpi` (errutil.c lines 1520-1753): returns the bytes
written and whether the output is NUL-terminated within the bound, or
`none` for executions whose behaviour C leaves undefined.  (The
`MPL_strdup` failure path, which depends on the allocator, is not taken.) -/
def vsnprintf_mpi (env : ErrEnv) (maxlen : Nat) (fmt : CStr) (args : List VArg) :
    Option (CStr × Bool) :=
  vsnprintfAux env (fmt.length + 1) { out := [], term := false, rem := maxlen } fmt args

/-! ## Message-table lookups -/

instance : Inhabited MsgEntry := ⟨{ sentinal1 := 0, short_name := [], long_name := [], sentinal2 := 0 }⟩

/-- Shared loop of `FindGenericMsgIndex` and `FindSpecificMsgIndex`
(errutil.c lines 1279-1300 and 2024-2049; the source notes the two are
identical up to the table): scan the sorted table, stop on a corrupted
sentinel, return the index of an exact match, and fail fast once the scan
passes the point where a match would have had to occur, unless the current
name merely extends the sought key. -/
def FindMsgIndexLoop (msg : CStr) : List MsgEntry → Nat → Int
  | [], _ => -1
  | entry :: rest, i =>
    if entry.sentinal1 ≠ 0xacebad03 ∨ entry.sentinal2 ≠ 0xcb0bfa11 then -1
    else
      let c := strcmp entry.short_name msg
      if c = 0 then (i : Int)
      else if c > 0 then
        if strncmp entry.short_name msg msg.length ≠ 0 then -1
        else FindMsgIndexLoop msg rest (i + 1)
      else FindMsgIndexLoop msg rest (i + 1)

/-- Source `FindGenericMsgIndex` (errutil.c lines 2024-2049). -/
def FindGenericMsgIndex (env : ErrEnv) (msg : CStr) : Int :=
  FindMsgIndexLoop msg env.generic_err_msgs 0

/-- Source `FindSpecificMsgIndex` (errutil.c lines 1279-1300). -/
def FindSpecificMsgIndex (env : ErrEnv) (msg : CStr) : Int :=
  FindMsgIndexLoop msg env.specific_err_msgs 0

/-- Source `get_class_msg` (errutil.c lines 1261-1270): the long message of
a valid class through the generated `class_to_index` table, a fixed
fallback otherwise. -/
def get_class_msg (env : ErrEnv) (error_class : Nat) : CStr :=
  if is_valid_error_class error_class then
    (env.generic_err_msgs.getD (env.class_to_index error_class) default).long_name
  else "Unknown error class".data

/-- Configuration read by the renderers: the print-full-stack toggle and
the post-initialization chop width (0 disables wrapping). -/
structure ErrCfg where
  print_error_stack : Bool
  chop_error_stack : Nat

/-! ## Stack and compact chain rendering -/

/-- First loop of `MPIR_Err_print_stack_string` (errutil.c lines
1087-1114): length of the longest location over the valid prefix of the
chain.  Fuel bounds the walk as for `CombineSpecificCodes`. -/
def maxLocationLen (s : RingState) : Nat → Nat → Nat → Nat
  | 0, _, acc => acc
  | fuel + 1, errcode, acc =>
    if errcode = MPI_SUCCESS then acc
    else
      match convertErrcodeToIndexes s errcode with
      | none => acc
      | some (ring_idx, ring_id, generic_idx) =>
        if generic_idx < 0 then acc
        else if (s.ring ring_idx).id = ring_id then
          maxLocationLen s fuel (s.ring ring_idx).prev_error
            (max acc (s.ring ring_idx).location.length)
        else acc

/-- Inner wrapping loop of the chop branch (errutil.c lines 1163-1189).
Returns the appended bytes and the remaining capacity; `none` when the
negative `snprintf` size or an exhausted-capacity `strlen` makes the
execution undefined.  A wrapped line really embeds the NUL `snprintf`
wrote before the newline slot, and the byte after the NUL position is
skipped (`cur_pos` advances one past the copied characters). -/
def chopLoop (chop maxloc : Nat) : Nat → CStr → Nat → Option (CStr × Nat)
  | 0, _, _ => none
  | fuel + 1, cur, maxlen =>
    if cur.length = 0 then some ([], maxlen)
    else if cur.length ≥ chop - maxloc then
      if cur.length > maxlen then some ([], maxlen)
      else if chop ≤ maxloc + 1 then none
      else
        let n := chop - 1 - maxloc
        let bytes := cur.take (n - 1) ++ ['\x00', '\n']
        let maxlen2 := maxlen - (n + 1)
        if maxlen2 < maxloc then some (bytes, maxlen2)
        else
          match chopLoop chop maxloc fuel (cur.drop n) (maxlen2 - maxloc) with
          | none => none
          | some (rest, ml) => some (bytes ++ List.replicate maxloc ' ' ++ rest, ml)
    else
      if maxlen = 0 then none
      else
        let vis := (cur ++ ['\n']).take (maxlen - 1)
        some (vis, maxlen - vis.length)

/-- Message part of one stack line: the chop branch when wrapping is
configured (including its once-only empty-message newline), the plain
`"%s\n"` otherwise (errutil.c lines 1156-1195). -/
def renderStackMsg (cfg : ErrCfg) (maxloc : Nat) (msg : CStr) (maxlen : Nat) :
    Option (CStr × Nat) :=
  if 0 < cfg.chop_error_stack then
    if msg.length = 0 then
      if 0 < maxlen then some (['\n'], maxlen - 1) else some ([], 0)
    else chopLoop cfg.chop_error_stack maxloc (msg.length + 1) msg maxlen
  else
    if maxlen = 0 then none
    else
      let vis := (msg ++ ['\n']).take (maxlen - 1)
      some (vis, maxlen - vis.length)

/-- One line of the stack print (errutil.c lines 1135-1195): the location,
filler dots up to the alignment width, ": ", then the message part. -/
def renderStackEntry (cfg : ErrCfg) (maxloc : Nat) (e : MPIR_Err_msg) (maxlen : Nat) :
    Option (CStr × Nat) :=
  if maxlen = 0 then none
  else
    let locvis := e.location.take (maxlen - 1)
    let m1 := maxlen - locvis.length
    let nchrs := maxloc - e.location.length - 2
    let dots := List.replicate (min nchrs m1) '.'
    let m2 := m1 - dots.length
    let colon : CStr := if 0 < m2 then [':'] else []
    let m3 := m2 - colon.length
    let space : CStr := if 0 < m3 then [' '] else []
    let m4 := m3 - space.length
    match renderStackMsg cfg maxloc e.msg m4 with
    | none => none
    | some (m, m5) => some (locvis ++ dots ++ colon ++ space ++ m, m5)

/-- Second loop of `MPIR_Err_print_stack_string` (errutil.c lines
1117-1200).  On a decode failure the C loop only prints a diagnostic and
falls through; the following slot read is out of bounds when the ring
index exceeds the array (`none`), and otherwise the stale id comparison
ends the walk. -/
def printStackLoop (cfg : ErrCfg) (s : RingState) (maxloc : Nat) :
    Nat → Nat → Nat → Option (CStr × Nat × Nat)
  | 0, _, _ => none
  | fuel + 1, errcode, maxlen =>
    if errcode = MPI_SUCCESS then some ([], errcode, maxlen)
    else
      let ring_idx := (errcode &&& ERROR_SPECIFIC_INDEX_MASK) >>> ERROR_SPECIFIC_INDEX_SHIFT
      let ring_id := errcode &&& (ERROR_CLASS_MASK ||| ERROR_GENERIC_MASK ||| ERROR_SPECIFIC_SEQ_MASK)
      let generic_idx : Int :=
        ((errcode &&& ERROR_GENERIC_MASK) >>> ERROR_GENERIC_SHIFT : Nat) - 1
      if generic_idx < 0 then some ([], errcode, maxlen)
      else if ring_idx ≥ MAX_ERROR_RING then none
      else if (s.ring ring_idx).id = ring_id then
        match renderStackEntry cfg maxloc (s.ring ring_idx) maxlen with
        | none => none
        | some (bytes, maxlen2) =>
          match printStackLoop cfg s maxloc fuel (s.ring ring_idx).prev_error maxlen2 with
          | none => none
          | some (rest, ec, ml) => some (bytes ++ rest, ec, ml)
      else some ([], errcode, maxlen)

/-- The final `str--; *str = 0` of `MPIR_Err_print_stack_string`: when
anything was written, the last byte is replaced by the terminator. -/
def stripLastByte (l : CStr) : CStr := if l.isEmpty then l else l.dropLast

/-- Source `MPIR_Err_print_stack_string` (errutil.c lines 1080-1256).
After the walk, a chain that did not unwind to success gets a one-line
fallback: the generic message of the leftover code when it names one (an
out-of-table index is modelled as the NULL fallback the source prints),
else its class message, else an invalid-class note. -/
def MPIR_Err_print_stack_string (env : ErrEnv) (cfg : ErrCfg) (s : RingState)
    (fuel : Nat) (errcode : Nat) (maxlen : Nat) : Option CStr :=
  let maxloc := maxLocationLen s fuel errcode 0 + 2
  match printStackLoop cfg s maxloc fuel errcode maxlen with
  | none => none
  | some (body, ec, maxlen2) =>
    if ec = MPI_SUCCESS then some (stripLastByte body)
    else
      let generic_idx : Int := ((ec &&& ERROR_GENERIC_MASK) >>> ERROR_GENERIC_SHIFT : Nat) - 1
      if generic_idx ≥ 0 then
        if maxlen2 = 0 then none
        else
          let p :=
            match env.generic_err_msgs.get? generic_idx.toNat with
            | none => "<NULL>".data
            | some en => if en.long_name.isEmpty then "<NULL>".data else en.long_name
          some (stripLastByte (body ++ ("(unknown)(): ".data ++ p ++ ['\n']).take (maxlen2 - 1)))
      else
        if maxlen2 = 0 then none
        else if ERROR_GET_CLASS ec ≤ MPICH_ERR_LAST_MPIX then
          some (stripLastByte (body ++
            ("(unknown)(): ".data ++ get_class_msg env (ERROR_GET_CLASS ec) ++ ['\n']).take (maxlen2 - 1)))
        else
          some (stripLastByte (body ++
            ("Error code contains an invalid class (".data ++ intToDec (ERROR_GET_CLASS ec) ++ ")".data ++ ['\n']).take (maxlen2 - 1)))

/-- Compact branch of `ErrGetInstanceString` (errutil.c lines 1970-2000):
each valid link formats its own fragment at the same buffer position,
clobbering the previous one (the source comment says so), and the walk
then follows the previous-code link. -/
def compactLoop (s : RingState) : Nat → Nat → Nat → Option CStr → Option (Option CStr × Bool)
  | 0, _, _, _ => none
  | fuel + 1, errorcode, num_remaining, buf =>
    if errorcode = MPI_SUCCESS then some (buf, false)
    else
      match convertErrcodeToIndexes s errorcode with
      | none => some (buf, true)
      | some (ring_idx, ring_id, generic_idx) =>
        if generic_idx < 0 then some (buf, true)
        else if (s.ring ring_idx).id = ring_id then
          if num_remaining = 0 then none
          else
            compactLoop s fuel (s.ring ring_idx).prev_error num_remaining
              (some ((", ".data ++ (s.ring ring_idx).msg).take (num_remaining - 1)))
        else some (buf, true)

/-- Source `ErrGetInstanceString` (errutil.c lines 1955-2007): the
full-stack branch writes a header and delegates to the stack printer; the
compact branch runs `compactLoop`.  Returns the bytes written (when any)
and the failed-to-unwind flag. -/
def ErrGetInstanceString (env : ErrEnv) (cfg : ErrCfg) (s : RingState) (fuel : Nat)
    (errorcode : Nat) (num_remaining : Nat) : Option (Option CStr × Bool) :=
  if cfg.print_error_stack then
    if num_remaining = 0 then none
    else
      let hdr := (", error stack:\n".data).take (num_remaining - 1)
      let nr2 := num_remaining - hdr.length
      match MPIR_Err_print_stack_string env cfg s fuel errorcode nr2 with
      | none => none
      | some out => some (some (hdr ++ out.take (nr2 - 1)), errorcode ≠ MPI_SUCCESS)
  else compactLoop s fuel errorcode num_remaining none

/-- Source `MPIR_Err_get_string` (errutil.c lines 698-772): nothing for a
zero-length buffer; the registered stringifier (or a fixed note) for
dynamic codes; the class message for bare classes; otherwise the class
message followed by the instance text. -/
def MPIR_Err_get_string (env : ErrEnv) (cfg : ErrCfg) (s : RingState) (fuel : Nat)
    (errorcode : Nat) (length : Nat) : Option CStr :=
  if length = 0 then some []
  else if errorcode &&& ERROR_DYN_MASK ≠ 0 then
    match env.errcode_to_string with
    | none => some (("Undefined dynamic error code".data).take (length - 1))
    | some f => some ((f errorcode).take (length - 1))
  else if errorcode &&& ERROR_CLASS_MASK = errorcode then
    some ((get_class_msg env errorcode).take (length - 1))
  else
    let w1 := (get_class_msg env (ERROR_GET_CLASS errorcode)).take (length - 1)
    let nr := length - w1.length
    match ErrGetInstanceString env cfg s fuel errorcode nr with
    | none => none
    | some (instOpt, _) => some (w1 ++ instOpt.getD [])

/-! ## Creating error codes -/

/-- The 32-bit complement of the generic-index mask, for
`err_code &= ~ERROR_GENERIC_MASK`. -/
def NOT_ERROR_GENERIC_MASK : Nat := 2 ^ 32 - 1 - ERROR_GENERIC_MASK

/-- Rendering of the `**user` specific message: the convention fixes the
format to carry exactly one `%d`, substituted with the user value
(errutil.c lines 943-953). -/
def sprintfD (fmt : CStr) (v : Int) : CStr :=
  match splitAtPercent fmt with
  | (seg, none) => seg
  | (seg, some []) => seg
  | (seg, some (c :: rest)) =>
    if c = 'd' then seg ++ intToDec v ++ rest else seg

/-- Effective class of a new code (errutil.c lines 895-918): an invalid
previous code is first discarded, then the generic "other" class inherits
the class of the surviving previous code when that class is above success
and at most the last extension class. -/
def effectiveErrorClass (env : ErrEnv) (s : RingState) (lastcode0 error_class0 : Nat) : Nat :=
  let lastcode :=
    if lastcode0 ≠ MPI_SUCCESS ∧ checkErrcodeIsValid env s lastcode0 ≠ 0 then MPI_SUCCESS
    else lastcode0
  if error_class0 = MPI_ERR_OTHER then
    if MPI_SUCCESS < MPIR_ERR_GET_CLASS lastcode ∧
        MPIR_ERR_GET_CLASS lastcode ≤ MPICH_ERR_LAST_MPIX then
      MPIR_ERR_GET_CLASS lastcode
    else MPI_ERR_OTHER
  else error_class0

/-- Source `MPIR_Err_create_code_valist` (errutil.c lines 882-1076).
Returns the updated ring and the new code; `none` when the variadic
arguments mismatch the format or the renderer hits an undefined
execution.  The slot is zeroed before being filled, so the stored message
is terminated regardless of how the renderer left it. -/
def MPIR_Err_create_code_valist (env : ErrEnv) (s : RingState) (lastcode0 : Nat)
    (fatal : Bool) (fcname : Option CStr) (line : Int) (error_class0 : Nat)
    (generic_msg : CStr) (specific_msg : Option CStr) (args : List VArg) :
    Option (RingState × Nat) :=
  let lastcode :=
    if lastcode0 ≠ MPI_SUCCESS ∧ checkErrcodeIsValid env s lastcode0 ≠ 0 then MPI_SUCCESS
    else lastcode0
  let error_class := effectiveErrorClass env s lastcode0 error_class0
  if error_class = MPI_ERR_IN_STATUS then some (s, MPI_ERR_IN_STATUS)
  else
    let generic_idx := FindGenericMsgIndex env generic_msg
    let use_user := generic_idx ≥ 0 ∧
      (env.generic_err_msgs.getD generic_idx.toNat default).short_name = "**user".data
    let userStep : Option (CStr × Nat × List VArg) :=
      if use_user then
        match specific_msg with
        | some smsg =>
          match args with
          | .int u :: args2 =>
            let specific_idx := FindSpecificMsgIndex env smsg
            let specific_fmt :=
              if specific_idx ≥ 0 then
                (env.specific_err_msgs.getD specific_idx.toNat default).long_name
              else smsg
            some ((sprintfD specific_fmt u).take MPIR_MAX_ERROR_LINE, intImage32 u, args2)
          | _ => none
        | none => some ([], intImage32 (-1), args)
      else some ([], intImage32 (-1), args)
    match userStep with
    | none => none
    | some (user_ring_msg, user_error_code, args2) =>
      let err_code1 :=
        if generic_idx ≥ 0 then
          error_class ||| ((generic_idx.toNat + 1) <<< ERROR_GENERIC_SHIFT)
        else error_class &&& NOT_ERROR_GENERIC_MASK
      let ring_idx := s.error_ring_loc
      let loc2 :=
        if s.error_ring_loc + 1 ≥ MAX_ERROR_RING then (s.error_ring_loc + 1) % MAX_ERROR_RING
        else s.error_ring_loc + 1
      let max2 := if loc2 > s.max_error_ring_loc then loc2 else s.max_error_ring_loc
      let msgStep : Option CStr :=
        match specific_msg with
        | some smsg =>
          if use_user then some (user_ring_msg.take MPIR_MAX_ERROR_LINE)
          else
            let specific_idx := FindSpecificMsgIndex env smsg
            let specific_fmt :=
              if specific_idx ≥ 0 then
                (env.specific_err_msgs.getD specific_idx.toNat default).long_name
              else smsg
            match vsnprintf_mpi env MPIR_MAX_ERROR_LINE specific_fmt args2 with
            | none => none
            | some (out, _) => some out
        | none =>
          if generic_idx ≥ 0 then
            some ((env.generic_err_msgs.getD generic_idx.toNat default).long_name.take
              MPIR_MAX_ERROR_LINE)
          else some (generic_msg.take MPIR_MAX_ERROR_LINE)
      match msgStep with
      | none => none
      | some ring_msg =>
        let idseq := ErrcodeCreateID error_class generic_idx ring_msg
        let location : CStr :=
          match fcname with
          | some f =>
            (f ++ "(".data ++ intToDec line ++ ")".data).take (MAX_LOCATION_LEN - 1)
          | none => []
        let entry0 : MPIR_Err_msg :=
          { id := idseq.1, prev_error := lastcode, use_user_error_code := false,
            user_error_code := 0, location := [], msg := ring_msg }
        let s1 : RingState :=
          { ring := fun j => if j = ring_idx then entry0 else s.ring j,
            error_ring_loc := loc2, max_error_ring_loc := max2 }
        let userCarry : Bool × Nat :=
          if use_user then (true, user_error_code)
          else if lastcode ≠ MPI_SUCCESS then
            match convertErrcodeToIndexes s1 lastcode with
            | none => (false, 0)
            | some (last_ring_idx, last_ring_id, last_generic_idx) =>
              if last_generic_idx ≥ 0 ∧ (s1.ring last_ring_idx).id = last_ring_id ∧
                  (s1.ring last_ring_idx).use_user_error_code then
                (true, (s1.ring last_ring_idx).user_error_code)
              else (false, 0)
          else (false, 0)
        let entry1 : MPIR_Err_msg :=
          { entry0 with use_user_error_code := userCarry.1,
                        user_error_code := if userCarry.1 then userCarry.2 else 0,
                        location := location }
        let s2 := setEntry s1 ring_idx entry1
        let err_code2 := err_code1 ||| (ring_idx <<< ERROR_SPECIFIC_INDEX_SHIFT) |||
          (idseq.2 <<< ERROR_SPECIFIC_SEQ_SHIFT)
        let err_code3 :=
          if fatal = true ∨ MPIR_Err_is_fatal lastcode = true then
            err_code2 ||| ERROR_FATAL_MASK
          else err_code2
        some (s2, err_code3)

/-- A concrete environment with empty tables, used by the concrete-input
theorems. -/
def envEmpty : ErrEnv :=
  { generic_err_msgs := [], specific_err_msgs := [],
    class_to_index := fun _ => 0, errcode_to_string := none,
    typeGetCombiner := fun _ => 0,
    datatypeBuiltinToString := fun _ => none,
    datatypeCombinerToString := fun _ => none,
    origBuiltin := fun h => h }

/-- Concrete ring with one live entry whose chain ends in a stale link:
slot 0 carries id 143 (class 15, generic index 0) and a previous code 133
whose id no longer matches any slot. -/
def ringStale : RingState :=
  { ring := fun j =>
      if j = 0 then
        { id := 143, prev_error := 133, use_user_error_code := false,
          user_error_code := 0, location := [], msg := [] }
      else zeroEntry,
    error_ring_loc := 1, max_error_ring_loc := 1 }

/-- Concrete ring with one live entry whose chain ends cleanly in success. -/
def ringRooted : RingState :=
  { ring := fun j =>
      if j = 0 then
        { id := 143, prev_error := 0, use_user_error_code := false,
          user_error_code := 0, location := [], msg := [] }
      else zeroEntry,
    error_ring_loc := 1, max_error_ring_loc := 1 }

/-- Concrete ring holding a two-link chain: slot 0 (id 133, message
"alpha") chains to slot 1 (id 134, message "beta"), which roots in
success.  Code 133 enters at slot 0; its previous code 524422 decodes to
slot 1 with matching id 134. -/
def ringTwo : RingState :=
  { ring := fun j =>
      if j = 0 then
        { id := 133, prev_error := 524422, use_user_error_code := false,
          user_error_code := 0, location := [], msg := "alpha".data }
      else if j = 1 then
        { id := 134, prev_error := 0, use_user_error_code := false,
          user_error_code := 0, location := [], msg := "beta".data }
      else zeroEntry,
    error_ring_loc := 2, max_error_ring_loc := 2 }

/-- Compact-mode renderer configuration: stack printing off, no wrapping. -/
def cfgCompact : ErrCfg := { print_error_stack := false, chop_error_stack := 0 }

/-! ## Error handlers and communicator dispatch -/

/-- An error-handler object; only the fields the dispatch code reads are
modelled: the handle that identifies built-in handlers (user-defined
handlers carry any other handle value). -/
structure MPIR_Errhandler where
  handle : Nat
deriving DecidableEq

/-- The single field of a communicator the core reads (spec: scope objects
expose only their current handler and a lock; the lock protects the read
and is released before the handler runs). -/
structure MPIR_Comm where
  errhandler : Option MPIR_Errhandler
deriving DecidableEq

/-- Modelled from the spec: the pieces of the global process state the
dispatch routine consults (initialization flag and the self/world scope
communicators). -/
structure ErrProcessEnv where
  initialized : Bool
  comm_self : Option MPIR_Comm
  comm_world : Option MPIR_Comm

/-- Observable outcome of a dispatch call: either the fatal path ran
(`MPIR_Handle_fatal_error`, which renders diagnostics and hands the given
code to the external abort primitive, never returning), or the call
returned an error code to the application. -/
inductive DispatchOutcome where
  | aborted (errcode : Nat)
  | returned (errcode : Nat)
deriving DecidableEq

/-- Source `MPIR_call_errhandler` (errutil.c lines 181-247): the built-in
return/throw handlers echo the code; any other handler reaching this
routine is user defined, its callback is invoked for effect only and the
routine returns `MPI_SUCCESS` (the local `mpi_errno` is never assigned on
that path). -/
def MPIR_call_errhandler (errhandler : MPIR_Errhandler) (errorcode : Nat) : Nat :=
  if errhandler.handle = MPI_ERRORS_RETURN ∨
      errhandler.handle = MPIR_ERRORS_THROW_EXCEPTIONS then errorcode
  else MPI_SUCCESS

/-- Source `MPIR_Err_return_comm` (errutil.c lines 254-333): repair the
class, abort before initialization, fall back from a missing communicator
handler to self-scope then world-scope, abort on fatal codes, missing or
fatal/abort handlers, and otherwise run the resolved handler on the
(possibly user-substituted) code. -/
def MPIR_Err_return_comm (penv : ErrProcessEnv) (s : RingState)
    (comm_ptr : Option MPIR_Comm) (errcode0 : Nat) : DispatchOutcome :=
  let errcode := (checkValidErrcode (ERROR_GET_CLASS errcode0) errcode0).1
  if penv.initialized = false then DispatchOutcome.aborted errcode
  else
    let errhandler := comm_ptr.bind fun c => c.errhandler
    let comm2 :=
      if errhandler = none then
        if (penv.comm_self.bind fun c => c.errhandler).isSome then penv.comm_self
        else if (penv.comm_world.bind fun c => c.errhandler).isSome then penv.comm_world
        else comm_ptr
      else comm_ptr
    if MPIR_Err_is_fatal errcode = true ∨ comm2 = none then
      DispatchOutcome.aborted errcode
    else
      match comm2.bind fun c => c.errhandler with
      | none => DispatchOutcome.aborted errcode
      | some eh =>
        if eh.handle = MPI_ERRORS_ARE_FATAL ∨ eh.handle = MPI_ERRORS_ABORT then
          DispatchOutcome.aborted errcode
        else
          DispatchOutcome.returned (MPIR_call_errhandler eh (checkForUserErrcode s errcode))

/-- Resolution order written out as the spec words it for communicators:
own handler, then the self-scope handler, then the world-scope handler,
then none.  Stated separately from the source translation so the dispatch
theorem can compare the two. -/
def resolveCommHandlerSpec (penv : ErrProcessEnv) (comm_ptr : Option MPIR_Comm) :
    Option MPIR_Errhandler :=
  match comm_ptr.bind fun c => c.errhandler with
  | some eh => some eh
  | none =>
    match penv.comm_self.bind fun c => c.errhandler with
    | some eh => some eh
    | none => penv.comm_world.bind fun c => c.errhandler

/-- Communicator dispatch as the spec words it: resolve per the fallback
table; abort when nothing resolves, when the code is classified fatal, or
when the resolved handler is the fatal or abort built-in; otherwise run
the handler on the user-substituted code.  Compared against the source
translation `MPIR_Err_return_comm` by the dispatch theorem. -/
def dispatchCommSpec (penv : ErrProcessEnv) (s : RingState)
    (comm_ptr : Option MPIR_Comm) (errcode0 : Nat) : DispatchOutcome :=
  let ec := (checkValidErrcode (ERROR_GET_CLASS errcode0) errcode0).1
  match resolveCommHandlerSpec penv comm_ptr with
  | none => DispatchOutcome.aborted ec
  | some eh =>
    if MPIR_Err_is_fatal ec = true ∨ eh.handle = MPI_ERRORS_ARE_FATAL ∨
        eh.handle = MPI_ERRORS_ABORT then DispatchOutcome.aborted ec
    else DispatchOutcome.returned (MPIR_call_errhandler eh (checkForUserErrcode s ec))

/-! ## Bit-level helper lemmas -/

theorem land_two_pow_eq (e k : Nat) :
    e &&& 2 ^ k = if e.testBit k then 2 ^ k else 0 := by
  rw [Nat.and_two_pow]
  cases h : e.testBit k <;> simp [h]

theorem land_two_pow_ne_zero_iff (e k : Nat) :
    e &&& 2 ^ k ≠ 0 ↔ e.testBit k = true := by
  rw [land_two_pow_eq]
  cases h : e.testBit k <;> simp [h]

theorem lor_lt_two_pow {x y n : Nat} (hx : x < 2 ^ n) (hy : y < 2 ^ n) :
    x ||| y < 2 ^ n := by
  by_contra h
  obtain ⟨i, hi, hbit⟩ := Nat.ge_two_pow_implies_high_bit_true (Nat.le_of_not_lt h)
  rw [Nat.testBit_lor] at hbit
  have hx2 : x < 2 ^ i := lt_of_lt_of_le hx (Nat.pow_le_pow_right (by norm_num) hi)
  have hy2 : y < 2 ^ i := lt_of_lt_of_le hy (Nat.pow_le_pow_right (by norm_num) hi)
  rw [Nat.testBit_lt_two_pow hx2, Nat.testBit_lt_two_pow hy2] at hbit
  simp at hbit

/-! ## Claim C1 -/

/-- Claim C1: `MPIR_Err_is_fatal` returns true if and only if the fatal bit
(bit 30) of the code is set and the dynamic flag (bit 31) is clear; in
particular a code with the dynamic flag set is never classified fatal. -/
theorem claim_C1_is_fatal_iff (e : Nat) :
    MPIR_Err_is_fatal e = true ↔ (e.testBit 30 = true ∧ e.testBit 31 = false) := by
  simp only [MPIR_Err_is_fatal, ERROR_DYN_MASK, ERROR_FATAL_MASK, land_two_pow_eq]
  by_cases h31 : e.testBit 31 <;> by_cases h30 : e.testBit 30 <;>
    simp [h31, h30]

/-! ## Claim C2 -/

/-- Claim C2: `MPIR_Err_combine_codes` treats success as an identity on
either side, and for non-success inputs a dynamic-flagged input wins, with
the first argument preferred when both carry the dynamic flag. -/
theorem claim_C2_combine_identity_dynamic (s : RingState) (fuel : Nat) (x y : Nat) :
    (MPIR_Err_combine_codes s fuel MPI_SUCCESS x).2 = x ∧
    (MPIR_Err_combine_codes s fuel x MPI_SUCCESS).2 = x ∧
    (x ≠ MPI_SUCCESS → y ≠ MPI_SUCCESS → x.testBit 31 = true →
      (MPIR_Err_combine_codes s fuel x y).2 = x) ∧
    (x ≠ MPI_SUCCESS → y ≠ MPI_SUCCESS → x.testBit 31 = false → y.testBit 31 = true →
      (MPIR_Err_combine_codes s fuel x y).2 = y) := by
  refine ⟨?_, ?_, ?_, ?_⟩
  · simp [MPIR_Err_combine_codes, MPI_SUCCESS]
  · rcases eq_or_ne x 0 with h | h <;> simp [MPIR_Err_combine_codes, MPI_SUCCESS, h]
  · intro hx hy hdyn
    have h : ¬(x &&& ERROR_DYN_MASK = 0) := by
      simp only [ERROR_DYN_MASK]
      exact (land_two_pow_ne_zero_iff x 31).mpr hdyn
    simp only [MPIR_Err_combine_codes]
    rw [if_neg hx, if_neg hy, if_pos h]
  · intro hx hy hxdyn hydyn
    have hx2 : x &&& ERROR_DYN_MASK = 0 := by
      simp only [ERROR_DYN_MASK, land_two_pow_eq, hxdyn]
      simp
    have hy2 : ¬(y &&& ERROR_DYN_MASK = 0) := by
      simp only [ERROR_DYN_MASK]
      exact (land_two_pow_ne_zero_iff y 31).mpr hydyn
    have hx3 : ¬(x &&& ERROR_DYN_MASK ≠ 0) := fun hc => hc hx2
    simp only [MPIR_Err_combine_codes]
    rw [if_neg hx, if_neg hy, if_neg hx3, if_pos hy2]

/-- Witness for claim C2 at concrete inputs: a dynamic first argument wins
over a non-success second argument. -/
theorem claim_C2_combine_identity_dynamic_witness :
    (MPIR_Err_combine_codes freshRing 1 (2 ^ 31 + 3) 5).2 = 2 ^ 31 + 3 :=
  (claim_C2_combine_identity_dynamic freshRing 1 (2 ^ 31 + 3) 5).2.2.1
    (by decide) (by decide) (by decide)

/-! ## Claim C3 -/

/-- Counterexample to claim C3 as stated: a code with the fatal bit set but
also the dynamic flag set does not take the fatal path; the resolved
return handler runs and the dispatch returns the code, because the source
tests `MPIR_Err_is_fatal` (fatal bit AND dynamic clear), not the bare
fatal bit. -/
theorem claim_C3_counterexample :
    MPIR_Err_return_comm
        { initialized := true, comm_self := none, comm_world := none }
        freshRing
        (some { errhandler := some { handle := MPI_ERRORS_RETURN } })
        (2 ^ 31 + 2 ^ 30 + 15) =
      DispatchOutcome.returned (2 ^ 31 + 2 ^ 30 + 15) ∧
    (2 ^ 31 + 2 ^ 30 + 15) &&& ERROR_FATAL_MASK ≠ 0 := by
  constructor
  · decide
  · decide

/-- Claim C3 (amended): once initialized, communicator dispatch behaves as
the fallback-resolution spec `dispatchCommSpec`: the handler resolves own
handler first, then the self-scope handler, then the world-scope handler;
the fatal path is entered when no handler resolves, when the resolved
handler is the fatal or abort built-in, or when the repaired code is
classified fatal by `MPIR_Err_is_fatal` (fatal bit set AND dynamic flag
clear, rather than the bare fatal bit of the original claim); otherwise
the resolved handler is invoked and its result returned. -/
theorem claim_C3_dispatch_resolution (penv : ErrProcessEnv) (s : RingState)
    (comm_ptr : Option MPIR_Comm) (errcode0 : Nat)
    (hinit : penv.initialized = true) :
    MPIR_Err_return_comm penv s comm_ptr errcode0 =
      dispatchCommSpec penv s comm_ptr errcode0 := by
  obtain ⟨init, cself, cworld⟩ := penv
  simp only at hinit
  subst hinit
  rcases comm_ptr with _ | ⟨_ | eh⟩ <;>
    rcases cself with _ | ⟨_ | ehs⟩ <;>
      rcases cworld with _ | ⟨_ | ehw⟩ <;>
        simp only [MPIR_Err_return_comm, dispatchCommSpec, resolveCommHandlerSpec,
          Option.bind, Option.isSome] <;>
        split_ifs <;> simp_all

/-- Witness for the amended claim C3: dispatch with a communicator that has
no handler resolves to the self-scope return handler and hands back the
code. -/
theorem claim_C3_dispatch_resolution_witness :
    MPIR_Err_return_comm
        { initialized := true,
          comm_self := some { errhandler := some { handle := MPI_ERRORS_RETURN } },
          comm_world := none }
        freshRing none 5 =
      dispatchCommSpec
        { initialized := true,
          comm_self := some { errhandler := some { handle := MPI_ERRORS_RETURN } },
          comm_world := none }
        freshRing none 5 ∧
    MPIR_Err_return_comm
        { initialized := true,
          comm_self := some { errhandler := some { handle := MPI_ERRORS_RETURN } },
          comm_world := none }
        freshRing none 5 = DispatchOutcome.returned 5 :=
  ⟨claim_C3_dispatch_resolution _ _ _ _ rfl, by decide⟩

/-! ## Claim C6 -/

theorem NOT_ERROR_CLASS_MASK_testBit (i : Nat) :
    NOT_ERROR_CLASS_MASK.testBit i = (decide (7 ≤ i) && decide (i < 32)) := by
  have h : NOT_ERROR_CLASS_MASK = (2 ^ 25 - 1) <<< 7 := by
    norm_num [NOT_ERROR_CLASS_MASK, Nat.shiftLeft_eq]
  rw [h, Nat.testBit_shiftLeft, Nat.testBit_two_pow_sub_one]
  simp only [ge_iff_le]
  by_cases h7 : 7 ≤ i
  · have h2 : (decide (i - 7 < 25)) = (decide (i < 32)) := by
      rw [decide_eq_decide]
      omega
    simp [h7, h2]
  · simp [h7]

theorem repaired_class_field (e : Nat) :
    ((e &&& NOT_ERROR_CLASS_MASK) ||| MPI_ERR_UNKNOWN) &&& ERROR_CLASS_MASK =
      MPI_ERR_UNKNOWN := by
  apply Nat.eq_of_testBit_eq
  intro i
  have hc : ERROR_CLASS_MASK = 2 ^ 7 - 1 := rfl
  rw [Nat.testBit_land, Nat.testBit_lor, Nat.testBit_land,
    NOT_ERROR_CLASS_MASK_testBit, hc, Nat.testBit_two_pow_sub_one]
  by_cases h7 : i < 7
  · interval_cases i <;> simp
  · have h13 : Nat.testBit MPI_ERR_UNKNOWN i = false := by
      apply Nat.testBit_lt_two_pow
      calc MPI_ERR_UNKNOWN < 2 ^ 7 := by norm_num [MPI_ERR_UNKNOWN]
        _ ≤ 2 ^ i := Nat.pow_le_pow_right (by norm_num) (by omega)
    simp [h7, h13]

theorem repaired_nonclass_bits (e : Nat) (he : e < 2 ^ 32) :
    ((e &&& NOT_ERROR_CLASS_MASK) ||| MPI_ERR_UNKNOWN) >>> ERROR_GENERIC_SHIFT =
      e >>> ERROR_GENERIC_SHIFT := by
  have hs : ERROR_GENERIC_SHIFT = 7 := rfl
  rw [hs]
  apply Nat.eq_of_testBit_eq
  intro i
  rw [Nat.testBit_shiftRight, Nat.testBit_shiftRight, Nat.testBit_lor,
    Nat.testBit_land, NOT_ERROR_CLASS_MASK_testBit]
  have h13 : Nat.testBit MPI_ERR_UNKNOWN (7 + i) = false := by
    apply Nat.testBit_lt_two_pow
    calc MPI_ERR_UNKNOWN < 2 ^ 7 := by norm_num [MPI_ERR_UNKNOWN]
      _ ≤ 2 ^ (7 + i) := Nat.pow_le_pow_right (by norm_num) (by omega)
  by_cases h32 : 7 + i < 32
  · have h7 : 7 ≤ 7 + i := by omega
    simp [h13, h32, h7]
  · have he2 : e.testBit (7 + i) = false := by
      apply Nat.testBit_lt_two_pow
      calc e < 2 ^ 32 := he
        _ ≤ 2 ^ (7 + i) := Nat.pow_le_pow_right (by norm_num) (by omega)
    simp [h13, h32, he2]

/-- Counterexample to claim C6 as stated: class 70 lies in the gap between
the two valid class ranges, so it is not a valid class, yet
`checkValidErrcode` passes the code through unmodified and emits no
diagnostic (the source only repairs classes strictly above
`MPICH_ERR_LAST_MPIX`). -/
theorem claim_C6_counterexample :
    is_valid_error_class 70 = false ∧
    checkValidErrcode (ERROR_GET_CLASS 70) 70 = (70, false) ∧
    ERROR_GET_CLASS 70 ≠ MPI_ERR_UNKNOWN := by
  refine ⟨by decide, by decide, by decide⟩

/-- Claim C6 (amended): `checkValidErrcode` repairs exactly the codes whose
class field exceeds the last extension class: their class bits become the
generic unknown class, every non-class bit is preserved, and the
diagnostic flag is raised; codes whose class is at most the last extension
class, including the invalid classes in the gap between the two valid
ranges, pass through unmodified with no diagnostic, and in particular every
code with a valid class is unchanged.  The routine always returns (it is a
total function); it never aborts. -/
theorem claim_C6_checkValidErrcode_repair (e : Nat) (he : e < 2 ^ 32) :
    (ERROR_GET_CLASS e > MPICH_ERR_LAST_MPIX →
      ERROR_GET_CLASS (checkValidErrcode (ERROR_GET_CLASS e) e).1 = MPI_ERR_UNKNOWN ∧
      (checkValidErrcode (ERROR_GET_CLASS e) e).1 >>> ERROR_GENERIC_SHIFT =
        e >>> ERROR_GENERIC_SHIFT ∧
      (checkValidErrcode (ERROR_GET_CLASS e) e).2 = true) ∧
    (ERROR_GET_CLASS e ≤ MPICH_ERR_LAST_MPIX →
      checkValidErrcode (ERROR_GET_CLASS e) e = (e, false)) ∧
    (is_valid_error_class (ERROR_GET_CLASS e) = true →
      checkValidErrcode (ERROR_GET_CLASS e) e = (e, false)) := by
  refine ⟨?_, ?_, ?_⟩
  · intro hgt
    rw [checkValidErrcode, if_pos hgt]
    exact ⟨repaired_class_field e, repaired_nonclass_bits e he, rfl⟩
  · intro hle
    rw [checkValidErrcode, if_neg (by omega)]
  · intro hvalid
    have hle : ERROR_GET_CLASS e ≤ MPICH_ERR_LAST_MPIX := by
      simp only [is_valid_error_class, MPICH_ERR_LAST_CLASS, MPICH_ERR_FIRST_MPIX,
        MPICH_ERR_LAST_MPIX, Bool.or_eq_true, Bool.and_eq_true, decide_eq_true_eq] at hvalid ⊢
      omega
    rw [checkValidErrcode, if_neg (by omega)]

/-- Witness for the amended claim C6: the out-of-range class 127 is
repaired to the unknown class. -/
theorem claim_C6_checkValidErrcode_repair_witness :
    ERROR_GET_CLASS (checkValidErrcode (ERROR_GET_CLASS 127) 127).1 = MPI_ERR_UNKNOWN :=
  ((claim_C6_checkValidErrcode_repair 127 (by norm_num)).1 (by decide)).1

/-! ## Claim C5 -/

/-- Claim C5: whenever the effective class of a new code is the reserved
"error in status array" sentinel, `MPIR_Err_create_code_valist` returns the
bare sentinel class itself: the ring state is untouched (no slot consumed,
nothing chained) and the returned code carries no generic index, ring
index, sequence or fatal bit. -/
theorem claim_C5_in_status_sentinel (env : ErrEnv) (s : RingState) (lastcode0 : Nat)
    (fatal : Bool) (fcname : Option CStr) (line : Int) (error_class0 : Nat)
    (generic_msg : CStr) (specific_msg : Option CStr) (args : List VArg)
    (h : effectiveErrorClass env s lastcode0 error_class0 = MPI_ERR_IN_STATUS) :
    MPIR_Err_create_code_valist env s lastcode0 fatal fcname line error_class0
      generic_msg specific_msg args = some (s, MPI_ERR_IN_STATUS) := by
  simp only [MPIR_Err_create_code_valist]
  rw [if_pos h]

/-- Witness for claim C5: creating a code with the sentinel class returns
the bare sentinel and the untouched ring. -/
theorem claim_C5_in_status_sentinel_witness :
    effectiveErrorClass envEmpty freshRing 0 MPI_ERR_IN_STATUS = MPI_ERR_IN_STATUS ∧
    MPIR_Err_create_code_valist envEmpty freshRing 0 false none 0 MPI_ERR_IN_STATUS
      [] none [] = some (freshRing, MPI_ERR_IN_STATUS) :=
  ⟨by decide,
   claim_C5_in_status_sentinel envEmpty freshRing 0 false none 0 MPI_ERR_IN_STATUS
     [] none [] (by decide)⟩

/-! ## Claim C4 -/

theorem updPrev_ring_id (s : RingState) (i v j : Nat) :
    ((updPrev s i v).ring j).id = (s.ring j).id := by
  simp only [updPrev, setEntry]
  by_cases h : j = i <;> simp [h]

theorem validLink_updPrev (s : RingState) (i v c : Nat) :
    validLink (updPrev s i v) c = validLink s c := by
  simp only [validLink]
  rw [show convertErrcodeToIndexes (updPrev s i v) c = convertErrcodeToIndexes s c from rfl]
  cases h : convertErrcodeToIndexes s c with
  | none => rfl
  | some x =>
    obtain ⟨ring_idx, ring_id, generic_idx⟩ := x
    simp only [updPrev_ring_id]

theorem chainFrom_updPrev (s : RingState) (i v : Nat) :
    ∀ (l : List Nat) (c t : Nat), chainFrom s c l t → i ∉ l →
      chainFrom (updPrev s i v) c l t := by
  intro l
  induction l with
  | nil =>
    intro c t h _
    exact ⟨h.1, by rw [validLink_updPrev]; exact h.2⟩
  | cons j l2 ih =>
    intro c t h hni
    obtain ⟨h1, h2⟩ := h
    have hj : j ≠ i := fun he => hni (he ▸ List.mem_cons_self j l2)
    refine ⟨by rw [validLink_updPrev]; exact h1, ?_⟩
    have hring : (updPrev s i v).ring j = s.ring j := by
      simp [updPrev, setEntry, hj]
    rw [hring]
    exact ih _ _ h2 (fun hm => hni (List.mem_cons_of_mem j hm))

/-- Unfolding of a dead link: the walk step returns the state unchanged. -/
theorem combineAux_dead (e2 e2c : Nat) (f : Nat) (s : RingState) (c : Nat)
    (hvl : validLink s c = none) :
    CombineSpecificCodesAux e2 e2c (f + 1) s c = s := by
  simp only [CombineSpecificCodesAux]
  revert hvl
  simp only [validLink]
  cases h : convertErrcodeToIndexes s c with
  | none => intro _; rfl
  | some x =>
    obtain ⟨ri, rid, gi⟩ := x
    intro hvl
    by_cases hg : gi < 0 ∨ (s.ring ri).id ≠ rid
    · simp [hg]
    · simp [hg] at hvl

/-- Decompose a live link into the decoded fields the walk guard uses. -/
theorem validLink_some_elim (s : RingState) (c i : Nat)
    (hvl : validLink s c = some i) :
    ∃ rid gi, convertErrcodeToIndexes s c = some (i, rid, gi) ∧
      0 ≤ gi ∧ (s.ring i).id = rid := by
  revert hvl
  simp only [validLink]
  cases h : convertErrcodeToIndexes s c with
  | none => intro hvl; exact absurd hvl (by simp)
  | some x =>
    obtain ⟨ri, rid, gi⟩ := x
    intro hvl
    by_cases hg : gi < 0 ∨ (s.ring ri).id ≠ rid
    · simp [hg] at hvl
    · have hvl2 : (if gi < 0 ∨ (s.ring ri).id ≠ rid then none else some ri) = some i := hvl
      rw [if_neg hg] at hvl2
      obtain rfl : ri = i := by simpa using hvl2
      push_neg at hg
      exact ⟨rid, gi, rfl, by omega, hg.2⟩

/-- A singleton list written as an appended last element. -/
theorem singleton_eq_append (i k : Nat) (l2 : List Nat) (he : [i] = l2 ++ [k]) :
    l2 = [] ∧ k = i := by
  cases l2 with
  | nil =>
    simp only [List.nil_append, List.cons.injEq] at he
    exact ⟨rfl, he.1.symm⟩
  | cons a l3 =>
    have hlen := congrArg List.length he
    simp at hlen

/-- Success code zero never forms a live link (its generic index is -1). -/
theorem validLink_zero (s : RingState) : validLink s MPI_SUCCESS = none := by
  simp [validLink, convertErrcodeToIndexes, MPI_SUCCESS, ERROR_SPECIFIC_INDEX_MASK,
    ERROR_GENERIC_MASK, MAX_ERROR_RING, ERROR_SPECIFIC_INDEX_SIZE]

/-- Behaviour of the `CombineSpecificCodes` walk over an explicit chain:
slots off the chain are untouched, the terminal slot gets its previous
field rewritten to the second code when the chain ends in success and is
left pointing at the dead code (possibly class-promoted) otherwise, and an
immediately dead chain leaves the state unchanged. -/
theorem combineAux_chain (e2 e2c : Nat) :
    ∀ (l : List Nat) (fuel : Nat) (s : RingState) (c t : Nat),
      chainFrom s c l t → l.Nodup → l.length < fuel →
      (∀ j, j ∉ l → (CombineSpecificCodesAux e2 e2c fuel s c).ring j = s.ring j) ∧
      (∀ k l2, l = l2 ++ [k] →
        (CombineSpecificCodesAux e2 e2c fuel s c).ring k =
          { s.ring k with prev_error :=
              if t = MPI_SUCCESS then e2
              else if MPIR_ERR_GET_CLASS t = MPI_ERR_OTHER then
                (t &&& NOT_ERROR_CLASS_MASK) ||| e2c
              else t }) ∧
      (l = [] → CombineSpecificCodesAux e2 e2c fuel s c = s) := by
  intro l
  induction l with
  | nil =>
    intro fuel s c t hch hnd hf
    obtain ⟨f, rfl⟩ : ∃ f, fuel = f + 1 := ⟨fuel - 1, by omega⟩
    have haux := combineAux_dead e2 e2c f s c hch.2
    refine ⟨fun j _ => by rw [haux], fun k l2 he => absurd he (by simp), fun _ => haux⟩
  | cons i l1 ih =>
    intro fuel s c t hch hnd hf
    obtain ⟨f, rfl⟩ : ∃ f, fuel = f + 1 := ⟨fuel - 1, by omega⟩
    obtain ⟨hvl, hch2⟩ := hch
    obtain ⟨rid, gi, hconv, hgi, hid⟩ := validLink_some_elim s c i hvl
    have hguard : ¬(gi < 0 ∨ (s.ring i).id ≠ rid) := by
      push_neg
      exact ⟨by omega, hid⟩
    have hstep : CombineSpecificCodesAux e2 e2c (f + 1) s c =
        (if (s.ring i).prev_error = MPI_SUCCESS then updPrev s i e2
         else
           CombineSpecificCodesAux e2 e2c f
             (if MPIR_ERR_GET_CLASS (s.ring i).prev_error = MPI_ERR_OTHER then
               updPrev s i (((s.ring i).prev_error &&& NOT_ERROR_CLASS_MASK) ||| e2c)
             else s)
             (s.ring i).prev_error) := by
      simp only [CombineSpecificCodesAux, hconv]
      rw [if_neg hguard]
    have hi1 : i ∉ l1 := (List.nodup_cons.mp hnd).1
    have hnd2 : l1.Nodup := (List.nodup_cons.mp hnd).2
    cases l1 with
    | nil =>
      obtain ⟨hpt, hvt⟩ := hch2
      by_cases ht : t = MPI_SUCCESS
      · subst ht
        rw [hstep, if_pos hpt]
        refine ⟨?_, ?_, by simp⟩
        · intro j hj
          have hji : j ≠ i := by simpa using hj
          simp [updPrev, setEntry, hji]
        · intro k l2 he
          obtain ⟨rfl, rfl⟩ := singleton_eq_append i k l2 he
          rw [if_pos rfl]
          simp [updPrev, setEntry]
      · rw [hstep, if_neg (fun h0 => ht (hpt ▸ h0))]
        obtain ⟨f2, rfl⟩ : ∃ f2, f = f2 + 1 := ⟨f - 1, by simp at hf; omega⟩
        by_cases hcl : MPIR_ERR_GET_CLASS (s.ring i).prev_error = MPI_ERR_OTHER
        · rw [if_pos hcl]
          have hdead : validLink (updPrev s i (((s.ring i).prev_error &&&
              NOT_ERROR_CLASS_MASK) ||| e2c)) (s.ring i).prev_error = none := by
            rw [validLink_updPrev]; exact hvt
          rw [combineAux_dead _ _ _ _ _ hdead]
          refine ⟨?_, ?_, by simp⟩
          · intro j hj
            have hji : j ≠ i := by simpa using hj
            simp [updPrev, setEntry, hji]
          · intro k l2 he
            obtain ⟨rfl, rfl⟩ := singleton_eq_append i k l2 he
            rw [if_neg ht, if_pos (hpt ▸ hcl)]
            rw [← hpt]
            simp [updPrev, setEntry]
        · rw [if_neg hcl]
          have hdead : validLink s (s.ring i).prev_error = none := hvt
          rw [combineAux_dead _ _ _ _ _ hdead]
          refine ⟨fun j _ => rfl, ?_, by simp⟩
          intro k l2 he
          obtain ⟨rfl, rfl⟩ := singleton_eq_append i k l2 he
          rw [if_neg ht, if_neg (hpt ▸ hcl), ← hpt]
    | cons i2 l2' =>
      have hpnz : (s.ring i).prev_error ≠ MPI_SUCCESS := by
        intro h0
        have hv2 := hch2.1
        rw [h0, validLink_zero] at hv2
        exact absurd hv2 (by simp)
      rw [hstep, if_neg hpnz]
      have hch3 : chainFrom
          (if MPIR_ERR_GET_CLASS (s.ring i).prev_error = MPI_ERR_OTHER then
            updPrev s i (((s.ring i).prev_error &&& NOT_ERROR_CLASS_MASK) ||| e2c)
          else s)
          (s.ring i).prev_error (i2 :: l2') t := by
        by_cases hcl : MPIR_ERR_GET_CLASS (s.ring i).prev_error = MPI_ERR_OTHER
        · rw [if_pos hcl]
          exact chainFrom_updPrev s i _ _ _ _ hch2 hi1
        · rw [if_neg hcl]
          exact hch2
      have hflen : (i2 :: l2').length < f := by simp at hf ⊢; omega
      obtain ⟨IH1, IH2, _⟩ := ih f _ _ t hch3 hnd2 hflen
      have hs2ring : ∀ j, j ≠ i →
          ((if MPIR_ERR_GET_CLASS (s.ring i).prev_error = MPI_ERR_OTHER then
            updPrev s i (((s.ring i).prev_error &&& NOT_ERROR_CLASS_MASK) ||| e2c)
          else s).ring j) = s.ring j := by
        intro j hji
        by_cases hcl : MPIR_ERR_GET_CLASS (s.ring i).prev_error = MPI_ERR_OTHER
        · rw [if_pos hcl]; simp [updPrev, setEntry, hji]
        · rw [if_neg hcl]
      refine ⟨?_, ?_, by simp⟩
      · intro j hj
        have hji : j ≠ i := fun he => hj (he ▸ List.mem_cons_self i (i2 :: l2'))
        have hj2 : j ∉ i2 :: l2' := fun hm => hj (List.mem_cons_of_mem i hm)
        rw [IH1 j hj2, hs2ring j hji]
      · intro k l2 he
        cases l2 with
        | nil =>
          exfalso
          have hlen := congrArg List.length he
          simp at hlen
        | cons a l3 =>
          rw [List.cons_append] at he
          injection he with ha he2
          have hk : k ∈ i2 :: l2' := by rw [he2]; simp
          have hki : k ≠ i := fun hkeq => hi1 (hkeq ▸ hk)
          rw [IH2 k l3 he2, hs2ring k hki]

/-- Counterexample to claim C4 as stated: with a chain that ends at a
stale link (code 133 whose slot id no longer matches), the terminal
previous field is NOT rewritten to the second code; the merge is skipped
and the stale link stays in place, exactly as the source comment above
`MPIR_Err_combine_codes` says. -/
theorem claim_C4_counterexample :
    chainFrom ringStale 143 [0] 133 ∧
    (143 : Nat) ≠ MPI_SUCCESS ∧ (3 : Nat) ≠ MPI_SUCCESS ∧
    143 &&& ERROR_DYN_MASK = 0 ∧ 3 &&& ERROR_DYN_MASK = 0 ∧
    ((MPIR_Err_combine_codes ringStale 8 143 3).1.ring 0).prev_error = 133 ∧
    (133 : Nat) ≠ 3 := by
  exact ⟨⟨by decide, by decide, by decide⟩, by decide, by decide, by decide,
    by decide, by decide, by decide⟩

/-- Claim C4 (amended): for non-success, non-dynamic codes the combine walk
follows the previous-code links of the first code; when the walk reaches
success, the terminal slot has its previous field rewritten to the second
code, merging the chains; when the walk ends at an invalid or stale link,
the terminal previous field is not rewritten to the second code — it keeps
pointing at the dead code, with only its class promoted to the (range
checked) class of the second code when that class was the generic "other"
class; and the returned code is the first code, its class bits replaced by
the (range-checked) class of the second code whenever the class of the
first code is the generic "other" class, all other bits unchanged. -/
theorem claim_C4_combine_chain_append (s : RingState) (fuel : Nat) (a b t k : Nat)
    (l : List Nat)
    (ha : a ≠ MPI_SUCCESS) (hb : b ≠ MPI_SUCCESS)
    (hadyn : a &&& ERROR_DYN_MASK = 0) (hbdyn : b &&& ERROR_DYN_MASK = 0)
    (hchain : chainFrom s a (l ++ [k]) t)
    (hnodup : (l ++ [k]).Nodup)
    (hfuel : (l ++ [k]).length < fuel) :
    (t = MPI_SUCCESS →
      ((MPIR_Err_combine_codes s fuel a b).1.ring k).prev_error = b) ∧
    (t ≠ MPI_SUCCESS →
      ((MPIR_Err_combine_codes s fuel a b).1.ring k).prev_error =
        (if MPIR_ERR_GET_CLASS t = MPI_ERR_OTHER then
          (t &&& NOT_ERROR_CLASS_MASK) ||| combineErrClass b
        else t)) ∧
    (MPIR_Err_combine_codes s fuel a b).2 =
      (if MPIR_ERR_GET_CLASS a = MPI_ERR_OTHER then
        (a &&& NOT_ERROR_CLASS_MASK) ||| combineErrClass b
      else a) := by
  have hcc : MPIR_Err_combine_codes s fuel a b =
      (CombineSpecificCodes s fuel a b (combineErrClass b),
       if MPIR_ERR_GET_CLASS a = MPI_ERR_OTHER then
         (a &&& NOT_ERROR_CLASS_MASK) ||| combineErrClass b
       else a) := by
    simp only [MPIR_Err_combine_codes]
    rw [if_neg ha, if_neg hb, if_neg (fun hc => hc hadyn), if_neg (fun hc => hc hbdyn)]
    by_cases hca : MPIR_ERR_GET_CLASS a = MPI_ERR_OTHER
    · rw [if_pos hca, if_pos hca]
    · rw [if_neg hca, if_neg hca]
  obtain ⟨_, H2, _⟩ :=
    combineAux_chain b (combineErrClass b) (l ++ [k]) fuel s a t hchain hnodup hfuel
  have hk := H2 k l rfl
  rw [hcc]
  have hsc : CombineSpecificCodes s fuel a b (combineErrClass b) =
      CombineSpecificCodesAux b (combineErrClass b) fuel s a := rfl
  refine ⟨?_, ?_, rfl⟩
  · intro ht
    rw [hsc, hk, if_pos ht]
  · intro ht
    rw [hsc, hk, if_neg ht]

/-- Witness for the amended claim C4: a one-link chain rooted in success
gets its terminal previous field rewritten to the second code. -/
theorem claim_C4_combine_chain_append_witness :
    ((MPIR_Err_combine_codes ringRooted 8 143 3).1.ring 0).prev_error = 3 :=
  (claim_C4_combine_chain_append ringRooted 8 143 3 0 0 []
    (by decide) (by decide) (by decide) (by decide)
    ⟨by decide, by decide, by decide⟩ (by decide) (by decide)).1 rfl

/-! ## Claim C7 -/

/-- A dead, non-success code makes the compact loop exit immediately,
leaving the buffer as it is and reporting a failed unwind. -/
theorem compactLoop_dead (s : RingState) (f c nr : Nat) (buf : Option CStr)
    (hvl : validLink s c = none) (hc : c ≠ MPI_SUCCESS) :
    compactLoop s (f + 1) c nr buf = some (buf, true) := by
  simp only [compactLoop]
  rw [if_neg hc]
  revert hvl
  simp only [validLink]
  cases h : convertErrcodeToIndexes s c with
  | none => intro _; rfl
  | some x =>
    obtain ⟨ri, rid, gi⟩ := x
    intro hvl
    dsimp only at hvl ⊢
    by_cases hgi : gi < 0
    · rw [if_pos hgi]
    · have hid : (s.ring ri).id ≠ rid := by
        intro he
        apply absurd hvl
        rw [if_neg (by push_neg; exact ⟨by omega, he⟩)]
        simp
      rw [if_neg hgi, if_neg hid]

/-- Behaviour of the compact loop over an explicit chain: nothing is
written for an immediately dead chain; otherwise the fragment of the LAST
visited slot is what remains in the buffer — each fragment overwrote the
previous one — and the unwind flag reports whether the walk died before
success. -/
theorem compactLoop_chain (s : RingState) :
    ∀ (l : List Nat) (fuel : Nat) (c t nr : Nat) (buf : Option CStr),
      chainFrom s c l t → l.length < fuel → 1 ≤ nr →
      (l = [] → compactLoop s fuel c nr buf = some (buf, decide (t ≠ MPI_SUCCESS))) ∧
      (∀ k l0, l = l0 ++ [k] →
        compactLoop s fuel c nr buf =
          some (some ((", ".data ++ (s.ring k).msg).take (nr - 1)),
            decide (t ≠ MPI_SUCCESS))) := by
  intro l
  induction l with
  | nil =>
    intro fuel c t nr buf hch hf hnr
    obtain ⟨f, rfl⟩ : ∃ f, fuel = f + 1 := ⟨fuel - 1, by omega⟩
    obtain ⟨rfl, hvl⟩ := hch
    refine ⟨fun _ => ?_, fun k l0 he => absurd he (by simp)⟩
    by_cases hc : c = MPI_SUCCESS
    · subst hc
      simp [compactLoop, MPI_SUCCESS]
    · rw [compactLoop_dead s f c nr buf hvl hc]
      simp [hc]
  | cons i l1 ih =>
    intro fuel c t nr buf hch hf hnr
    obtain ⟨f, rfl⟩ : ∃ f, fuel = f + 1 := ⟨fuel - 1, by omega⟩
    obtain ⟨hvl, hch2⟩ := hch
    obtain ⟨rid, gi, hconv, hgi, hid⟩ := validLink_some_elim s c i hvl
    have hcz : c ≠ MPI_SUCCESS := by
      intro h0
      rw [h0, validLink_zero] at hvl
      exact absurd hvl (by simp)
    have hstep : compactLoop s (f + 1) c nr buf =
        compactLoop s f (s.ring i).prev_error nr
          (some ((", ".data ++ (s.ring i).msg).take (nr - 1))) := by
      simp only [compactLoop, hconv]
      rw [if_neg hcz, if_neg (by omega : ¬gi < 0), if_pos hid,
        if_neg (by omega : ¬nr = 0)]
    have hflen : l1.length < f := by simp at hf; omega
    obtain ⟨IH1, IH2⟩ := ih f _ t nr _ hch2 hflen hnr
    refine ⟨fun he => absurd he (by simp), ?_⟩
    intro k l0 he
    cases l0 with
    | nil =>
      obtain ⟨rfl, rfl⟩ : l1 = [] ∧ k = i := by
        simp only [List.nil_append, List.cons.injEq] at he
        exact ⟨he.2.symm ▸ rfl, he.1.symm⟩
      rw [hstep]
      exact IH1 rfl
    | cons a l3 =>
      rw [List.cons_append] at he
      injection he with ha he2
      rw [hstep]
      exact IH2 k l3 he2

/-- Counterexample to claim C7 as stated: a two-link chain with messages
"alpha" (most recent) and "beta" renders, in compact mode, to the single
fragment ", beta" — each fragment clobbers the previous one at the same
buffer position — not to the claimed concatenation ", alpha, beta". -/
theorem claim_C7_counterexample :
    chainFrom ringTwo 133 [0, 1] 0 ∧
    ErrGetInstanceString envEmpty cfgCompact ringTwo 5 133 100 =
      some (some (", beta".data), false) ∧
    (", beta".data : CStr) ≠ ", alpha".data ++ ", beta".data := by
  exact ⟨⟨by decide, by decide, by decide, by decide⟩, by decide, by decide⟩

/-- Claim C7 (amended): in compact mode the rendered text of a non-empty
valid chain is the single fragment ", {message}" of the LAST valid link
the walk reaches (the deepest cause): the loop writes each fragment at the
same position, overwriting the previous one, with no location text and no
wrapping; the failed-unwind flag is raised exactly when the chain does not
end in success. -/
theorem claim_C7_compact_overwrites (env : ErrEnv) (cfg : ErrCfg) (s : RingState)
    (fuel code t nr k : Nat) (l : List Nat)
    (hcfg : cfg.print_error_stack = false)
    (hchain : chainFrom s code (l ++ [k]) t)
    (hfuel : (l ++ [k]).length < fuel)
    (hnr : 1 ≤ nr) :
    ErrGetInstanceString env cfg s fuel code nr =
      some (some ((", ".data ++ (s.ring k).msg).take (nr - 1)),
        decide (t ≠ MPI_SUCCESS)) := by
  simp only [ErrGetInstanceString, hcfg, Bool.false_eq_true, if_false]
  exact (compactLoop_chain s (l ++ [k]) fuel code t nr none hchain hfuel hnr).2 k l rfl

/-- Witness for the amended claim C7: the two-link "alpha"/"beta" chain
renders to the fragment of its deepest link. -/
theorem claim_C7_compact_overwrites_witness :
    ErrGetInstanceString envEmpty cfgCompact ringTwo 5 133 100 =
      some (some ((", ".data ++ (ringTwo.ring 1).msg).take 99), decide ((0 : Nat) ≠ MPI_SUCCESS)) :=
  claim_C7_compact_overwrites envEmpty cfgCompact ringTwo 5 133 0 100 1 [0]
    rfl ⟨by decide, by decide, by decide, by decide⟩ (by decide) (by decide)

/-! ## Bit lemmas for the packed code fields -/

theorem lor_land_distrib (a b c : Nat) : (a ||| b) &&& c = (a &&& c) ||| (b &&& c) := by
  apply Nat.eq_of_testBit_eq
  intro i
  rw [Nat.testBit_land, Nat.testBit_lor, Nat.testBit_lor, Nat.testBit_land, Nat.testBit_land]
  cases a.testBit i <;> cases b.testBit i <;> cases c.testBit i <;> rfl

theorem shiftLeft_lt {x m : Nat} (k : Nat) (h : x < 2 ^ m) : x <<< k < 2 ^ (m + k) := by
  rw [Nat.shiftLeft_eq, pow_add]
  exact Nat.mul_lt_mul_of_lt_of_le h (le_refl _) (Nat.pos_pow_of_pos k (by norm_num))

theorem shiftLeft_land_low (x k j : Nat) (h : j ≤ k) : (x <<< k) &&& (2 ^ j - 1) = 0 := by
  apply Nat.eq_of_testBit_eq
  intro i
  rw [Nat.testBit_land, Nat.testBit_shiftLeft, Nat.testBit_two_pow_sub_one, Nat.zero_testBit]
  by_cases hij : i < j
  · have : ¬i ≥ k := by omega
    simp [this]
  · simp [hij]

theorem land_mask_of_lt {x j : Nat} (h : x < 2 ^ j) : x &&& (2 ^ j - 1) = x := by
  rw [Nat.and_pow_two_sub_one_eq_mod]
  exact Nat.mod_eq_of_lt h

theorem lor_two_pow_land_ne_zero (x k : Nat) : (x ||| 2 ^ k) &&& 2 ^ k ≠ 0 := by
  rw [land_two_pow_ne_zero_iff, Nat.testBit_lor, Nat.testBit_two_pow]
  simp

theorem land_two_pow_of_lt {x k : Nat} (h : x < 2 ^ k) : x &&& 2 ^ k = 0 := by
  rw [land_two_pow_eq, Nat.testBit_lt_two_pow h]
  rfl

theorem NOT_ERROR_GENERIC_MASK_testBit (i : Nat) :
    NOT_ERROR_GENERIC_MASK.testBit i =
      (decide (i < 7) || (decide (19 ≤ i) && decide (i < 32))) := by
  have h : NOT_ERROR_GENERIC_MASK = (2 ^ 7 - 1) ||| ((2 ^ 13 - 1) <<< 19) := by decide
  rw [h, Nat.testBit_lor, Nat.testBit_two_pow_sub_one, Nat.testBit_shiftLeft,
    Nat.testBit_two_pow_sub_one]
  by_cases h19 : 19 ≤ i
  · have h2 : (decide (i - 19 < 13)) = (decide (i < 32)) := by
      rw [decide_eq_decide]
      omega
    simp [h19, h2]
  · simp [h19]

theorem land_NOT_GEN_small {x : Nat} (hx : x < 2 ^ 7) :
    x &&& NOT_ERROR_GENERIC_MASK = x := by
  apply Nat.eq_of_testBit_eq
  intro i
  rw [Nat.testBit_land, NOT_ERROR_GENERIC_MASK_testBit]
  by_cases h : i < 7
  · simp [h]
  · have hx2 : x.testBit i = false :=
      Nat.testBit_lt_two_pow
        (lt_of_lt_of_le hx (Nat.pow_le_pow_right (by norm_num) (by omega)))
    simp [hx2]

theorem findMsgIndexLoop_lt (msg : CStr) :
    ∀ (table : List MsgEntry) (i : Nat),
      FindMsgIndexLoop msg table i < (i : Int) + table.length := by
  intro table
  induction table with
  | nil =>
    intro i
    simp only [FindMsgIndexLoop, List.length_nil, Nat.cast_zero, add_zero]
    have : (0 : Int) ≤ i := Int.ofNat_nonneg i
    omega
  | cons e rest ih =>
    intro i
    simp only [FindMsgIndexLoop, List.length_cons]
    have h0 : (0 : Int) ≤ i := Int.ofNat_nonneg i
    have hr := ih (i + 1)
    have hc : ((i + 1 : Nat) : Int) = (i : Int) + 1 := by push_cast; ring
    rw [hc] at hr
    split_ifs <;> push_cast <;> omega

theorem ErrcodeCreateID_seq_lt (a : Nat) (b : Int) (c : CStr) :
    (ErrcodeCreateID a b c).2 < 2 ^ 4 := by
  simp only [ErrcodeCreateID]
  exact Nat.mod_lt _ (by norm_num [ERROR_SPECIFIC_SEQ_SIZE])

/-- Reduction of the stored-or-reset previous code to a fatality test on
the original: fatality is inherited exactly when the previous code
survives validation and is itself classified fatal. -/
theorem lastcode_fatal_iff (env : ErrEnv) (s : RingState) (lastcode0 : Nat) :
    MPIR_Err_is_fatal
        (if lastcode0 ≠ MPI_SUCCESS ∧ checkErrcodeIsValid env s lastcode0 ≠ 0 then
          MPI_SUCCESS
        else lastcode0) = true ↔
      (checkErrcodeIsValid env s lastcode0 = 0 ∧ MPIR_Err_is_fatal lastcode0 = true) := by
  have hz : MPIR_Err_is_fatal MPI_SUCCESS = false := by decide
  by_cases h : lastcode0 ≠ MPI_SUCCESS ∧ checkErrcodeIsValid env s lastcode0 ≠ 0
  · rw [if_pos h, hz]
    simp [h.2]
  · rw [if_neg h]
    push_neg at h
    by_cases h0 : lastcode0 = MPI_SUCCESS
    · subst h0
      rw [hz]
      have : checkErrcodeIsValid env s MPI_SUCCESS = 0 := by
        unfold checkErrcodeIsValid
        rw [if_pos (by decide)]
      simp [this, hz]
    · simp [h h0]

/-- Field separation in a freshly packed code: with every field within its
width, the fatal bit reads back as the fatal condition and the class bits
read back as the class. -/
theorem packed_code_bits (ec gn idx seq : Nat) (guse fc : Prop)
    [Decidable guse] [Decidable fc]
    (hec : ec < 2 ^ 7) (hgn : gn < 2 ^ 12) (hidx : idx < 2 ^ 7) (hseq : seq < 2 ^ 4) :
    ((if fc then
        (if guse then ec ||| (gn <<< ERROR_GENERIC_SHIFT)
         else ec &&& NOT_ERROR_GENERIC_MASK) |||
          (idx <<< ERROR_SPECIFIC_INDEX_SHIFT) ||| (seq <<< ERROR_SPECIFIC_SEQ_SHIFT) |||
          ERROR_FATAL_MASK
      else
        (if guse then ec ||| (gn <<< ERROR_GENERIC_SHIFT)
         else ec &&& NOT_ERROR_GENERIC_MASK) |||
          (idx <<< ERROR_SPECIFIC_INDEX_SHIFT) ||| (seq <<< ERROR_SPECIFIC_SEQ_SHIFT)) &&&
        ERROR_FATAL_MASK ≠ 0 ↔ fc) ∧
    (if fc then
        (if guse then ec ||| (gn <<< ERROR_GENERIC_SHIFT)
         else ec &&& NOT_ERROR_GENERIC_MASK) |||
          (idx <<< ERROR_SPECIFIC_INDEX_SHIFT) ||| (seq <<< ERROR_SPECIFIC_SEQ_SHIFT) |||
          ERROR_FATAL_MASK
      else
        (if guse then ec ||| (gn <<< ERROR_GENERIC_SHIFT)
         else ec &&& NOT_ERROR_GENERIC_MASK) |||
          (idx <<< ERROR_SPECIFIC_INDEX_SHIFT) ||| (seq <<< ERROR_SPECIFIC_SEQ_SHIFT)) &&&
      ERROR_CLASS_MASK = ec := by
  have hsh : ERROR_GENERIC_SHIFT = 7 := rfl
  have hshI : ERROR_SPECIFIC_INDEX_SHIFT = 19 := rfl
  have hshS : ERROR_SPECIFIC_SEQ_SHIFT = 26 := rfl
  have hF : ERROR_FATAL_MASK = 2 ^ 30 := rfl
  have hM : ERROR_CLASS_MASK = 2 ^ 7 - 1 := rfl
  have hE1 : (if guse then ec ||| (gn <<< ERROR_GENERIC_SHIFT)
      else ec &&& NOT_ERROR_GENERIC_MASK) < 2 ^ 19 := by
    split_ifs
    · apply lor_lt_two_pow (lt_of_lt_of_le hec (by norm_num))
      rw [hsh]
      exact lt_of_lt_of_le (shiftLeft_lt 7 hgn) (by norm_num)
    · rw [land_NOT_GEN_small hec]
      exact lt_of_lt_of_le hec (by norm_num)
  have hE2 : (if guse then ec ||| (gn <<< ERROR_GENERIC_SHIFT)
      else ec &&& NOT_ERROR_GENERIC_MASK) |||
        (idx <<< ERROR_SPECIFIC_INDEX_SHIFT) ||| (seq <<< ERROR_SPECIFIC_SEQ_SHIFT) <
      2 ^ 30 := by
    apply lor_lt_two_pow
    · apply lor_lt_two_pow (lt_of_lt_of_le hE1 (by norm_num))
      rw [hshI]
      exact lt_of_lt_of_le (shiftLeft_lt 19 hidx) (by norm_num)
    · rw [hshS]
      exact lt_of_lt_of_le (shiftLeft_lt 26 hseq) (by norm_num)
  have hclassE2 : ((if guse then ec ||| (gn <<< ERROR_GENERIC_SHIFT)
      else ec &&& NOT_ERROR_GENERIC_MASK) |||
        (idx <<< ERROR_SPECIFIC_INDEX_SHIFT) ||| (seq <<< ERROR_SPECIFIC_SEQ_SHIFT)) &&&
      ERROR_CLASS_MASK = ec := by
    rw [hM, lor_land_distrib, lor_land_distrib, hshI, hshS,
      shiftLeft_land_low idx 19 7 (by norm_num), shiftLeft_land_low seq 26 7 (by norm_num),
      Nat.or_zero, Nat.or_zero]
    split_ifs
    · rw [hsh, lor_land_distrib, shiftLeft_land_low gn 7 7 (le_refl 7), Nat.or_zero,
        land_mask_of_lt hec]
    · rw [land_NOT_GEN_small hec, land_mask_of_lt hec]
  constructor
  · by_cases hfc : fc
    · rw [if_pos hfc]
      refine iff_of_true ?_ hfc
      rw [hF]
      exact lor_two_pow_land_ne_zero _ 30
    · rw [if_neg hfc]
      refine iff_of_false ?_ hfc
      rw [hF, land_two_pow_of_lt hE2]
      simp
  · by_cases hfc : fc
    · rw [if_pos hfc, hM, lor_land_distrib, ← hM, hclassE2, hF, hM]
      rw [show (2 ^ 30 : Nat) &&& (2 ^ 7 - 1) = 0 by decide, Nat.or_zero]
    · rw [if_neg hfc]
      exact hclassE2

/-- Field readback of a freshly created code: under the structural bounds
(class within width, table within the generic field, cursor within the
ring), the fatal bit of the result is set exactly when requested or
inherited from a validated fatal previous code, and the class bits are the
effective class. -/
theorem create_code_bits (env : ErrEnv) (s : RingState) (lastcode0 : Nat) (fatal : Bool)
    (fcname : Option CStr) (line : Int) (error_class0 : Nat) (generic_msg : CStr)
    (specific_msg : Option CStr) (args : List VArg) (s2 : RingState) (code : Nat)
    (hclass : error_class0 < ERROR_CLASS_SIZE)
    (hglen : env.generic_err_msgs.length < 2 ^ 12)
    (hloc : s.error_ring_loc < MAX_ERROR_RING)
    (hns : effectiveErrorClass env s lastcode0 error_class0 ≠ MPI_ERR_IN_STATUS)
    (hres : MPIR_Err_create_code_valist env s lastcode0 fatal fcname line error_class0
      generic_msg specific_msg args = some (s2, code)) :
    ((code &&& ERROR_FATAL_MASK ≠ 0) ↔
      (fatal = true ∨ (checkErrcodeIsValid env s lastcode0 = 0 ∧
        MPIR_Err_is_fatal lastcode0 = true))) ∧
    ERROR_GET_CLASS code = effectiveErrorClass env s lastcode0 error_class0 := by
  have hecb : effectiveErrorClass env s lastcode0 error_class0 < 2 ^ 7 := by
    have hm : ∀ x : Nat, MPIR_ERR_GET_CLASS x < 2 ^ 7 := fun x => by
      rw [MPIR_ERR_GET_CLASS, ERROR_GET_CLASS, ERROR_CLASS_MASK,
        Nat.and_pow_two_sub_one_eq_mod]
      exact Nat.mod_lt _ (by norm_num)
    simp only [effectiveErrorClass]
    by_cases ho : error_class0 = MPI_ERR_OTHER
    · rw [if_pos ho]
      split_ifs <;> first | exact hm _ | norm_num [MPI_ERR_OTHER]
    · rw [if_neg ho]
      exact hclass
  have hgn : (FindGenericMsgIndex env generic_msg).toNat + 1 < 2 ^ 12 := by
    have hg := findMsgIndexLoop_lt generic_msg env.generic_err_msgs 0
    have hg2 : FindGenericMsgIndex env generic_msg <
        (env.generic_err_msgs.length : Int) := by
      simpa [FindGenericMsgIndex] using hg
    omega
  have hidx : s.error_ring_loc < 2 ^ 7 := hloc
  simp only [MPIR_Err_create_code_valist] at hres
  rw [if_neg hns] at hres
  split at hres
  · exact absurd hres (by simp)
  · split at hres
    · exact absurd hres (by simp)
    · simp only [Option.some.injEq, Prod.mk.injEq] at hres
      obtain ⟨hs2, hcode⟩ := hres
      subst hcode
      constructor
      · rw [← lastcode_fatal_iff env s lastcode0]
        exact (packed_code_bits _ _ _ _ _ _ hecb hgn hidx
          (ErrcodeCreateID_seq_lt _ _ _)).1
      · simp only [ERROR_GET_CLASS]
        exact (packed_code_bits _ _ _ _ _ _ hecb hgn hidx
          (ErrcodeCreateID_seq_lt _ _ _)).2

/-! ## Claim C9 -/

/-- Counterexample to claim C9 as stated: a previous code with the fatal
bit set (so `isFatal` is true) that fails ring validation (its slot id no
longer matches) is discarded before the fatality check, and the new code
does NOT inherit the fatal bit. -/
theorem claim_C9_counterexample :
    MPIR_Err_is_fatal 1073741839 = true ∧
    checkErrcodeIsValid envEmpty freshRing 1073741839 ≠ 0 ∧
    (MPIR_Err_create_code_valist envEmpty freshRing 1073741839 false none 0 5
      ("**foo".data) none []).map Prod.snd = some 536870917 ∧
    536870917 &&& ERROR_FATAL_MASK = 0 := by
  refine ⟨by decide, by decide, by decide, by decide⟩

/-- Claim C9 (amended): for every call whose effective class is not the
"error in status array" sentinel, the returned code carries the fatal bit
if and only if the fatal argument is true or the previous code both passes
ring validation and is itself classified fatal by `MPIR_Err_is_fatal`; an
invalid previous code is replaced by success first and contributes no
fatality. -/
theorem claim_C9_fatal_inheritance (env : ErrEnv) (s : RingState) (lastcode0 : Nat)
    (fatal : Bool) (fcname : Option CStr) (line : Int) (error_class0 : Nat)
    (generic_msg : CStr) (specific_msg : Option CStr) (args : List VArg)
    (s2 : RingState) (code : Nat)
    (hclass : error_class0 < ERROR_CLASS_SIZE)
    (hglen : env.generic_err_msgs.length < 2 ^ 12)
    (hloc : s.error_ring_loc < MAX_ERROR_RING)
    (hns : effectiveErrorClass env s lastcode0 error_class0 ≠ MPI_ERR_IN_STATUS)
    (hres : MPIR_Err_create_code_valist env s lastcode0 fatal fcname line error_class0
      generic_msg specific_msg args = some (s2, code)) :
    (code &&& ERROR_FATAL_MASK ≠ 0) ↔
      (fatal = true ∨ (checkErrcodeIsValid env s lastcode0 = 0 ∧
        MPIR_Err_is_fatal lastcode0 = true)) :=
  (create_code_bits env s lastcode0 fatal fcname line error_class0 generic_msg
    specific_msg args s2 code hclass hglen hloc hns hres).1

/-- Witness for the amended claim C9: requesting a fatal code sets the
fatal bit of the result. -/
theorem claim_C9_fatal_inheritance_witness :
    ((1610612741 : Nat) &&& ERROR_FATAL_MASK ≠ 0) ↔
      (true = true ∨ (checkErrcodeIsValid envEmpty freshRing 0 = 0 ∧
        MPIR_Err_is_fatal 0 = true)) :=
  claim_C9_fatal_inheritance envEmpty freshRing 0 true none 0 5 ("**foo".data) none []
    _ 1610612741 (by decide) (by decide) (by decide) (by decide) rfl

/-! ## Claim C10 -/

/-- The effective class of a new code created with the generic "other"
class, phrased on the original previous code: the promotion happens
exactly when the previous code passes validation and its class is above
success and at most the last extension class. -/
theorem effectiveErrorClass_other (env : ErrEnv) (s : RingState) (lastcode0 : Nat) :
    effectiveErrorClass env s lastcode0 MPI_ERR_OTHER =
      (if checkErrcodeIsValid env s lastcode0 = 0 ∧
          MPI_SUCCESS < MPIR_ERR_GET_CLASS lastcode0 ∧
          MPIR_ERR_GET_CLASS lastcode0 ≤ MPICH_ERR_LAST_MPIX
       then MPIR_ERR_GET_CLASS lastcode0 else MPI_ERR_OTHER) := by
  simp only [effectiveErrorClass]
  rw [if_pos trivial]
  by_cases h : lastcode0 ≠ MPI_SUCCESS ∧ checkErrcodeIsValid env s lastcode0 ≠ 0
  · rw [if_pos h, if_neg (by decide), if_neg (fun hc => h.2 hc.1)]
  · rw [if_neg h]
    push_neg at h
    by_cases h0 : lastcode0 = MPI_SUCCESS
    · subst h0
      rw [if_neg (by decide), if_neg (fun hc => absurd hc.2.1 (by decide))]
    · have hch : checkErrcodeIsValid env s lastcode0 = 0 := h h0
      simp [hch]

/-- Counterexample to claim C10 as stated: a previous code with a valid
class (5) strictly above success, but which fails ring validation, is
discarded before the promotion; the new code keeps the generic "other"
class instead of carrying class 5. -/
theorem claim_C10_counterexample :
    MPIR_ERR_GET_CLASS 201326597 = 5 ∧
    is_valid_error_class 5 = true ∧
    (201326597 : Nat) ≠ MPI_SUCCESS ∧
    (MPIR_Err_create_code_valist envEmpty freshRing 201326597 false none 0 MPI_ERR_OTHER
      ("**foo".data) none []).map Prod.snd = some 536870927 ∧
    ERROR_GET_CLASS 536870927 = MPI_ERR_OTHER ∧
    MPI_ERR_OTHER ≠ 5 := by
  refine ⟨by decide, by decide, by decide, by decide, by decide, by decide⟩

/-- Claim C10 (amended): a code created with the generic "other" class
carries the class of the previous code exactly when the previous code
passes ring validation and its class is strictly above success and at most
the last extension class; when the previous code is success, fails
validation (and is discarded), or is above the extension range, the new
code keeps the "other" class. -/
theorem claim_C10_other_class_promotion (env : ErrEnv) (s : RingState) (lastcode0 : Nat)
    (fatal : Bool) (fcname : Option CStr) (line : Int)
    (generic_msg : CStr) (specific_msg : Option CStr) (args : List VArg)
    (s2 : RingState) (code : Nat)
    (hglen : env.generic_err_msgs.length < 2 ^ 12)
    (hloc : s.error_ring_loc < MAX_ERROR_RING)
    (hres : MPIR_Err_create_code_valist env s lastcode0 fatal fcname line MPI_ERR_OTHER
      generic_msg specific_msg args = some (s2, code)) :
    ERROR_GET_CLASS code =
      (if checkErrcodeIsValid env s lastcode0 = 0 ∧
          MPI_SUCCESS < MPIR_ERR_GET_CLASS lastcode0 ∧
          MPIR_ERR_GET_CLASS lastcode0 ≤ MPICH_ERR_LAST_MPIX
       then MPIR_ERR_GET_CLASS lastcode0 else MPI_ERR_OTHER) := by
  rw [← effectiveErrorClass_other env s lastcode0]
  by_cases hns : effectiveErrorClass env s lastcode0 MPI_ERR_OTHER = MPI_ERR_IN_STATUS
  · have h17 : MPIR_Err_create_code_valist env s lastcode0 fatal fcname line MPI_ERR_OTHER
        generic_msg specific_msg args = some (s, MPI_ERR_IN_STATUS) := by
      simp only [MPIR_Err_create_code_valist]
      rw [if_pos hns]
    rw [h17] at hres
    simp only [Option.some.injEq, Prod.mk.injEq] at hres
    obtain ⟨hs2, hcode⟩ := hres
    rw [← hcode, hns]
    decide
  · exact (create_code_bits env s lastcode0 fatal fcname line MPI_ERR_OTHER generic_msg
      specific_msg args s2 code (by norm_num [MPI_ERR_OTHER, ERROR_CLASS_SIZE]) hglen hloc
      hns hres).2

/-- Witness for the amended claim C10: a validated bare previous code of
class 5 promotes the "other" class of the new code to class 5. -/
theorem claim_C10_other_class_promotion_witness :
    ERROR_GET_CLASS 536870917 =
      (if checkErrcodeIsValid envEmpty freshRing 5 = 0 ∧
          MPI_SUCCESS < MPIR_ERR_GET_CLASS 5 ∧
          MPIR_ERR_GET_CLASS 5 ≤ MPICH_ERR_LAST_MPIX
       then MPIR_ERR_GET_CLASS 5 else MPI_ERR_OTHER) :=
  claim_C10_other_class_promotion envEmpty freshRing 5 false none 0
    ("**foo".data) none [] _ 536870917 (by decide) (by decide) rfl

/-! ## Claim C8 -/

/-- The copy of `MPL_strncpy` never exceeds the bound, and when it reports
a clean (non-truncated) copy the NUL also fits, so strictly fewer than `n`
message bytes were written. -/
theorem mplStrncpy_spec (s : CStr) (n : Nat) :
    (mplStrncpy s n).1.length ≤ n ∧
      ((mplStrncpy s n).2 = true → (mplStrncpy s n).1.length < n) := by
  unfold mplStrncpy
  split_ifs with h1 h2
  · simp
  · exact ⟨Nat.le_of_lt h2, fun _ => h2⟩
  · constructor
    · simp only [List.length_take]
      omega
    · intro h
      simp at h

/-- Bound invariant of the renderer loop: starting from a buffer whose
termination flag implies spare capacity, the bytes written never exceed
the initial capacity, and whenever the loop reports a terminated output
the NUL fits inside the bound as well. -/
theorem vsnprintfAux_bound (env : ErrEnv) (fuel : Nat) :
    ∀ (buf : VsBuf) (fmt : CStr) (args : List VArg) (outp : CStr) (term : Bool),
      (buf.term = true → 0 < buf.rem) →
      vsnprintfAux env fuel buf fmt args = some (outp, term) →
      outp.length ≤ buf.out.length + buf.rem ∧
        (term = true → outp.length < buf.out.length + buf.rem) := by
  induction fuel with
  | zero =>
    intro buf fmt args outp term hterm hres
    simp [vsnprintfAux] at hres
  | succ fuel ih =>
    intro buf fmt args outp term hterm hres
    simp only [vsnprintfAux] at hres
    split at hres
    · split at hres
      · simp only [Option.some.injEq, Prod.mk.injEq] at hres
        obtain ⟨ho, ht⟩ := hres
        subst ho; subst ht
        exact ⟨Nat.le_add_right _ _, fun h => by have := hterm h; omega⟩
      · simp only [Option.some.injEq, Prod.mk.injEq] at hres
        obtain ⟨ho, ht⟩ := hres
        rename_i seg hsp hne
        have hm := mplStrncpy_spec seg buf.rem
        subst ho; subst ht
        constructor
        · simp only [List.length_append]
          omega
        · intro h
          have := hm.2 h
          simp only [List.length_append]
          omega
    · rename_i seg rest hsp
      split at hres
      · simp only [Option.some.injEq, Prod.mk.injEq] at hres
        obtain ⟨ho, ht⟩ := hres
        subst ho; subst ht
        constructor
        · simp only [List.length_append, List.length_take]
          omega
        · intro h
          split at h
          · simp at h
          · have := hterm h
            simp only [List.length_append, List.length_take]
            omega
      · rename_i c rest2
        split at hres
        · simp only [Option.some.injEq, Prod.mk.injEq] at hres
          obtain ⟨ho, ht⟩ := hres
          subst ho; subst ht
          constructor
          · simp only [List.length_append, List.length_take]
            omega
          · intro h
            split at h
            · simp at h
            · have := hterm h
              simp only [List.length_append, List.length_take]
              omega
        · simp at hres
        · rename_i piece args2 hdir
          split at hres
          · simp at hres
          · rename_i hrem
            have hih := ih _ rest2 args2 outp term (fun _ => by
              dsimp only
              simp only [List.length_take]
              omega) hres
            dsimp only at hih
            simp only [List.length_append, List.length_take] at hih
            refine ⟨?_, fun h => ?_⟩
            · have := hih.1
              omega
            · have := hih.2 h
              omega
        · rename_i piece args2 hdir
          split at hres
          · rename_i htr
            have hm := mplStrncpy_spec piece (buf.rem - min buf.rem seg.length)
            have hlt := hm.2 htr
            have hih := ih _ rest2 args2 outp term (fun _ => by
              dsimp only
              omega) hres
            dsimp only at hih
            simp only [List.length_append, List.length_take] at hih
            refine ⟨?_, fun h => ?_⟩
            · have := hih.1
              omega
            · have := hih.2 h
              omega
          · simp at hres

/-- Bound invariant of the compact chain walk: since every fragment is
written at the same position and truncated to the capacity, any fragment
the walk hands back fits inside the capacity with room for its NUL,
provided the incoming one does. -/
theorem compactLoop_buf_bound (s : RingState) (fuel : Nat) :
    ∀ (e nr : Nat) (buf instOpt : Option CStr) (flag : Bool),
      (∀ l, buf = some l → l.length + 1 ≤ nr) →
      compactLoop s fuel e nr buf = some (instOpt, flag) →
      ∀ l, instOpt = some l → l.length + 1 ≤ nr := by
  induction fuel with
  | zero =>
    intro e nr buf instOpt flag hbuf hres
    simp [compactLoop] at hres
  | succ fuel ih =>
    intro e nr buf instOpt flag hbuf hres
    simp only [compactLoop] at hres
    split at hres
    · simp only [Option.some.injEq, Prod.mk.injEq] at hres
      obtain ⟨hb, hf⟩ := hres
      subst hb
      exact hbuf
    · split at hres
      · simp only [Option.some.injEq, Prod.mk.injEq] at hres
        obtain ⟨hb, hf⟩ := hres
        subst hb
        exact hbuf
      · rename_i ring_idx ring_id generic_idx hconv
        split at hres
        · simp only [Option.some.injEq, Prod.mk.injEq] at hres
          obtain ⟨hb, hf⟩ := hres
          subst hb
          exact hbuf
        · split at hres
          · split at hres
            · simp at hres
            · rename_i hnr
              refine ih _ _ _ _ _ (fun l hl => ?_) hres
              simp only [Option.some.injEq] at hl
              subst hl
              simp only [List.length_take]
              omega
          · simp only [Option.some.injEq, Prod.mk.injEq] at hres
            obtain ⟨hb, hf⟩ := hres
            subst hb
            exact hbuf

/-- Bound on the instance-string assembler: starting from an empty
fragment, any text it produces fits in the capacity with room for its
NUL, in both the full-stack and the compact branch. -/
theorem ErrGetInstanceString_bound (env : ErrEnv) (cfg : ErrCfg) (s : RingState)
    (fuel e nr : Nat) (instOpt : Option CStr) (flag : Bool)
    (hres : ErrGetInstanceString env cfg s fuel e nr = some (instOpt, flag)) :
    ∀ l, instOpt = some l → l.length + 1 ≤ nr := by
  simp only [ErrGetInstanceString] at hres
  split at hres
  · split at hres
    · simp at hres
    · rename_i hnr
      split at hres
      · simp at hres
      · rename_i outp hps
        simp only [Option.some.injEq, Prod.mk.injEq] at hres
        obtain ⟨hb, hf⟩ := hres
        intro l hl
        rw [← hb] at hl
        simp only [Option.some.injEq] at hl
        subst hl
        simp only [List.length_append, List.length_take]
        omega
  · exact compactLoop_buf_bound s fuel e nr none instOpt flag
      (fun l hl => by simp at hl) hres

/-- Bound on the whole string assembler: every message it produces stays
within the supplied buffer size, and as soon as the buffer is non-empty
the final NUL fits too. -/
theorem MPIR_Err_get_string_bound (env : ErrEnv) (cfg : ErrCfg) (s : RingState)
    (fuel errorcode length : Nat) (msg : CStr)
    (hres : MPIR_Err_get_string env cfg s fuel errorcode length = some msg) :
    msg.length ≤ length ∧ (0 < length → msg.length < length) := by
  simp only [MPIR_Err_get_string] at hres
  split at hres
  · rename_i h0
    simp only [Option.some.injEq] at hres
    subst hres
    subst h0
    simp
  · rename_i h0
    split at hres
    · split at hres
      · simp only [Option.some.injEq] at hres
        subst hres
        simp only [List.length_take]
        omega
      · simp only [Option.some.injEq] at hres
        subst hres
        simp only [List.length_take]
        omega
    · split at hres
      · simp only [Option.some.injEq] at hres
        subst hres
        simp only [List.length_take]
        omega
      · split at hres
        · simp at hres
        · rename_i instOpt flag hinst
          simp only [Option.some.injEq] at hres
          subst hres
          have hb := ErrGetInstanceString_bound env cfg s fuel errorcode _ instOpt flag hinst
          cases instOpt with
          | none =>
            simp only [Option.getD_none, List.append_nil, List.length_take]
            omega
          | some l =>
            have hl := hb l rfl
            simp only [List.length_take] at hl
            simp only [Option.getD_some, List.length_append, List.length_take]
            omega

/-- Counterexample to claim C8 as stated: rendering the plain literal
template "abcdef" into a 3-byte buffer fills all 3 bytes with message
text and reports the output unterminated - no NUL lies within the bound
(the callers in the source re-terminate by hand after such calls). -/
theorem claim_C8_counterexample :
    vsnprintf_mpi envEmpty 3 ("abcdef".data) [] = some ("abc".data, false) ∧
    ("abc".data).length = 3 := by
  exact ⟨by decide, by decide⟩

/-- Claim C8 (amended): on every defined execution both renderers write
only within the supplied bound, silently truncating on exhaustion; the
string assembler additionally leaves room for the terminating NUL
whenever the buffer is non-empty, while the template renderer guarantees
that room exactly when it reports the output terminated - a truncated
trailing literal may legitimately fill the whole bound with no NUL. -/
theorem claim_C8_render_bounds (env : ErrEnv) (cfg : ErrCfg) (s : RingState)
    (fuel maxlen : Nat) (fmt : CStr) (args : List VArg) (outp : CStr) (term : Bool)
    (errorcode length : Nat) (msg : CStr)
    (h1 : vsnprintf_mpi env maxlen fmt args = some (outp, term))
    (h2 : MPIR_Err_get_string env cfg s fuel errorcode length = some msg) :
    (outp.length ≤ maxlen ∧ (term = true → outp.length < maxlen)) ∧
      (msg.length ≤ length ∧ (0 < length → msg.length < length)) := by
  constructor
  · have hb := vsnprintfAux_bound env (fmt.length + 1)
      { out := [], term := false, rem := maxlen } fmt args outp term
      (fun h => by simp at h) h1
    simpa using hb
  · exact MPIR_Err_get_string_bound env cfg s fuel errorcode length msg h2

/-- Witness for the amended claim C8 at a concrete rendering: "ab%d" with
argument 5 in a 10-byte buffer gives the terminated "ab5", and a
zero-length buffer gets the empty message. -/
theorem claim_C8_render_bounds_witness :
    ((("ab5".data : CStr).length ≤ 10 ∧ (true = true → ("ab5".data : CStr).length < 10)) ∧
      (([] : CStr).length ≤ 0 ∧ (0 < 0 → ([] : CStr).length < 0))) :=
  claim_C8_render_bounds envEmpty cfgCompact freshRing 1 10 ("ab%d".data) [.int 5]
    ("ab5".data) true 5 0 [] (by decide) (by decide)

end Errutil
